import Mathlib

/-!
Verification development for the knowledge-store core of the repository:
the record model, the boolean filter evaluators of the in-process and
file-persisted backends, the lifecycle operations (add / update / delete /
restore / purge / batch load), the pagination stage, the atomic file flush,
and the SQL WHERE-clause builder of the Postgres backend.

Modelling conventions, used uniformly below:
* Go `time.Time` is modelled as a natural number of nanoseconds; `0` plays
  the role of the zero value, matching `t.IsZero()` in the source.  Every
  operation that calls `time.Now()` in the source takes the current time
  as an explicit `now` parameter.
* Go `map[string]V` is modelled as an association list in insertion order.
  Go map iteration order is unspecified; every theorem below is insensitive
  to the traversal order (membership, counts and per-key lookups only).
* Go slice expressions `s[low:high]` are modelled by `goIntSlice`, which
  returns `none` exactly when the Go expression would panic
  (`low < 0`, `low > high` or `high > len(s)`).  A search that returns
  `none` models a run that panics instead of returning.
* `fmt.Sprintf` with verb `v` on the slice- and map-valued record fields is
  modelled by the `goFmt*` helpers; it is reached only by the generic sort
  comparator fallback and by no claim below.
* Functions that in Go return `(T, error)` are modelled as `Except String T`
  (the error text keeps the prefix of the source message).
-/

namespace Knowledge

/-- Go `time.Time`, as nanoseconds; `0` is the zero value (`IsZero`). -/
abbrev GoTime := Nat

/-- `Reference` from `knowledge.go`: a reference to another knowledge record.
The Go field `Type` is called `Ty` here because `Type` is a Lean keyword. -/
structure Reference where
  ID : String
  Ty : String
deriving DecidableEq, Repr

/-- `Entry` from `knowledge.go`: a single knowledge record. -/
structure Entry where
  ID : String
  Category : String
  ContentType : String
  Content : List Nat
  Importance : Int
  CreatedAt : GoTime
  UpdatedAt : GoTime
  ExpiresAt : GoTime
  SourceID : String
  SourceType : String
  OwnerID : String
  OwnerType : String
  SubjectIDs : List String
  SubjectType : String
  Tags : List String
  References : List Reference
  Metadata : List (String × String)
deriving DecidableEq, Repr

/-- The Go zero value of `Entry`. -/
def zeroEntry : Entry :=
  { ID := "", Category := "", ContentType := "", Content := [], Importance := 0,
    CreatedAt := 0, UpdatedAt := 0, ExpiresAt := 0, SourceID := "", SourceType := "",
    OwnerID := "", OwnerType := "", SubjectIDs := [], SubjectType := "", Tags := [],
    References := [], Metadata := [] }

/-- `FilterOperator` from `knowledge.go` is a string type. -/
abbrev FilterOperator := String

/-- Logical AND operator constant. -/
def OpAnd : FilterOperator := "AND"

/-- Logical OR operator constant. -/
def OpOr : FilterOperator := "OR"

/-- Logical NOT operator constant. -/
def OpNot : FilterOperator := "NOT"

/-- The dynamically typed `Condition.Value` (`interface\x7b\x7d` in Go),
restricted to the payload shapes the store code inspects.  The
`vAnyMap` constructor models `map[string]interface\x7b\x7d` (the SQL clause
builder only reads its keys, so values are kept as rendered strings), and
`vList` models `[]interface\x7b\x7d` (only its length is inspected, by the
`BETWEEN` branch of the clause builder). -/
inductive GoVal where
  | vString (s : String)
  | vInt (n : Int)
  | vTime (t : GoTime)
  | vBytes (bs : List Nat)
  | vStrMap (m : List (String × String))
  | vAnyMap (m : List (String × String))
  | vList (n : Nat)
  | vNil
deriving DecidableEq, Repr

/-- `Condition` from `knowledge.go`: a single filter condition. -/
structure Condition where
  Field : String
  Operator : String
  Value : GoVal
deriving DecidableEq, Repr

/-- `FilterGroup` from `knowledge.go`: a group of conditions with a logical
operator and nested groups. -/
inductive FilterGroup where
  | mk (Operator : FilterOperator) (Conditions : List Condition) (Groups : List FilterGroup)

/-- Projection for the `Operator` field of a `FilterGroup`. -/
def FilterGroup.Operator : FilterGroup → FilterOperator
  | .mk o _ _ => o

/-- Projection for the `Conditions` field of a `FilterGroup`. -/
def FilterGroup.Conditions : FilterGroup → List Condition
  | .mk _ c _ => c

/-- Projection for the `Groups` field of a `FilterGroup`. -/
def FilterGroup.Groups : FilterGroup → List FilterGroup
  | .mk _ _ g => g

/-- `Filter` from `knowledge.go`: the query structure for `SearchRecords`. -/
structure Filter where
  RootGroup : FilterGroup
  Limit : Int
  Offset : Int
  OrderBy : String
  OrderDir : String
  IncludeDeleted : Bool
  OnlyDeleted : Bool

/-- The Go zero value of `Filter`. -/
def zeroFilter : Filter :=
  { RootGroup := .mk "" [] [], Limit := 0, Offset := 0, OrderBy := "",
    OrderDir := "", IncludeDeleted := false, OnlyDeleted := false }

/-! ### Go maps as association lists -/

/-- Go `map[string]V`, in insertion order. -/
abbrev GoMap (α : Type) := List (String × α)

/-- Map lookup (`m[k]`). -/
def mapGet {α : Type} (m : GoMap α) (k : String) : Option α :=
  match m with
  | [] => none
  | (k0, v0) :: rest => if k0 = k then some v0 else mapGet rest k

/-- Map membership (`_, ok := m[k]`). -/
def mapHas {α : Type} (m : GoMap α) (k : String) : Bool :=
  (mapGet m k).isSome

/-- Map assignment (`m[k] = v`): replaces in place or appends. -/
def mapSet {α : Type} (m : GoMap α) (k : String) (v : α) : GoMap α :=
  match m with
  | [] => [(k, v)]
  | (k0, v0) :: rest => if k0 = k then (k0, v) :: rest else (k0, v0) :: mapSet rest k v

/-- Map deletion (`delete(m, k)`). -/
def mapDel {α : Type} (m : GoMap α) (k : String) : GoMap α :=
  match m with
  | [] => []
  | (k0, v0) :: rest => if k0 = k then rest else (k0, v0) :: mapDel rest k

/-- The values of a map, in model traversal order. -/
def mapVals {α : Type} (m : GoMap α) : List α :=
  m.map (fun p => p.2)

/-! ### Go slice expressions -/

/-- Go `s[low:high]` on a slice of length `s.length`: `none` models the
run-time panic raised when `low < 0`, `low > high` or `high > len(s)`. -/
def goIntSlice {α : Type} (s : List α) (low high : Int) : Option (List α) :=
  if 0 ≤ low ∧ low ≤ high ∧ high ≤ (s.length : Int) then
    some ((s.take high.toNat).drop low.toNat)
  else
    none

/-! ### The sort stage (`sortRecords` in all three backends)

The three backends carry a line-identical `sortRecords` that sorts with
`sort.Slice` (an unstable comparison sort with unspecified order among
incomparable elements) over a reflection-driven less-than function.  It is
modelled as a merge sort over that same less-than function; every theorem
below depends only on the sorted output being a permutation of the input. -/

/-- Opening brace character, for the Go renderings built below. -/
def braceL : String := String.singleton (Char.ofNat 123)

/-- Closing brace character. -/
def braceR : String := String.singleton (Char.ofNat 125)

/-- Go `fmt` rendering of a `[]string` value with verb `v`. -/
def goFmtStrings (xs : List String) : String :=
  "[" ++ String.intercalate (" ") xs ++ "]"

/-- Go `fmt` rendering of a `[]byte` value with verb `v`. -/
def goFmtBytes (bs : List Nat) : String :=
  "[" ++ String.intercalate (" ") (bs.map (fun b => toString b)) ++ "]"

/-- Go `fmt` rendering of a `Reference` value with verb `v`. -/
def goFmtReference (r : Reference) : String :=
  braceL ++ r.ID ++ " " ++ r.Ty ++ braceR

/-- Go `fmt` rendering of a `[]Reference` value with verb `v`. -/
def goFmtReferences (rs : List Reference) : String :=
  "[" ++ String.intercalate (" ") (rs.map goFmtReference) ++ "]"

/-- Go `fmt` rendering of a `map[string]string` value with verb `v`
(keys in sorted order, as `fmt` prints maps). -/
def goFmtMetadata (m : List (String × String)) : String :=
  "map[" ++
    String.intercalate (" ")
      ((m.mergeSort (fun p q => decide (p.1 ≤ q.1))).map (fun p => p.1 ++ ":" ++ p.2)) ++
  "]"

/-- The value of an `Entry` field as seen by the reflection dispatch of
`sortRecords`: `fstr`, `fint` and `ftime` are the `String`, `Int` and
`time.Time` kinds; `ffmt` carries the `Sprintf` rendering used by the
default branch (slice- and map-kinded fields). -/
inductive FieldVal where
  | fstr (v : String)
  | fint (v : Int)
  | ftime (v : GoTime)
  | ffmt (v : String)
deriving DecidableEq, Repr

/-- `reflect.ValueOf(record).FieldByName(name)`: `none` models an invalid
(unknown) field. -/
def entryField (e : Entry) (name : String) : Option FieldVal :=
  match name with
  | "ID" => some (.fstr e.ID)
  | "Category" => some (.fstr e.Category)
  | "ContentType" => some (.fstr e.ContentType)
  | "Content" => some (.ffmt (goFmtBytes e.Content))
  | "Importance" => some (.fint e.Importance)
  | "CreatedAt" => some (.ftime e.CreatedAt)
  | "UpdatedAt" => some (.ftime e.UpdatedAt)
  | "ExpiresAt" => some (.ftime e.ExpiresAt)
  | "SourceID" => some (.fstr e.SourceID)
  | "SourceType" => some (.fstr e.SourceType)
  | "OwnerID" => some (.fstr e.OwnerID)
  | "OwnerType" => some (.fstr e.OwnerType)
  | "SubjectIDs" => some (.ffmt (goFmtStrings e.SubjectIDs))
  | "SubjectType" => some (.fstr e.SubjectType)
  | "Tags" => some (.ffmt (goFmtStrings e.Tags))
  | "References" => some (.ffmt (goFmtReferences e.References))
  | "Metadata" => some (.ffmt (goFmtMetadata e.Metadata))
  | _ => none

/-- The less-than closure passed to `sort.Slice` by `sortRecords`
(identical in `memory_store.go`, `file_store.go` and the Postgres store):
invalid fields compare as `false`; `String`, `Int` and `time.Time` kinds
compare natively; other kinds compare by their `Sprintf` rendering;
ascending unless `orderDir == "DESC"`. -/
def sortLess (orderBy orderDir : String) (a b : Entry) : Bool :=
  match entryField a orderBy, entryField b orderBy with
  | some fa, some fb =>
    let ascending : Bool := orderDir != "DESC"
    match fa, fb with
    | .fstr x, .fstr y => if ascending then x < y else y < x
    | .fint x, .fint y => if ascending then x < y else y < x
    | .ftime x, .ftime y => if ascending then x < y else y < x
    | .ffmt x, .ffmt y => if ascending then x < y else y < x
    | _, _ => false
  | _, _ => false

/-- `sortRecords`: the in-memory sort stage shared by all backends. -/
def sortRecords (records : List Entry) (orderBy orderDir : String) : List Entry :=
  records.mergeSort (fun a b => !(sortLess orderBy orderDir b a))

/-! ### Filter evaluation: `MemoryStore.matchesFilter`

From `memory_store.go` (the `MemoryStore` variant embedded in
`file_store.go` carries the same group evaluator).  The per-condition
matcher `mc` abstracts the method `m.matchesCondition`, whose
reflection-driven and float-parsing comparisons are below the level of the
claims; every theorem quantifies over `mc`, so it holds for the concrete
matcher of the source in particular. -/

mutual

/-- `MemoryStore.matchesFilter`: an empty group matches everything; `AND`
requires every condition and subgroup to match; `OR` at least one; `NOT`
none; any other operator (including the empty string) matches nothing. -/
def memMatchesFilter (mc : Entry → Condition → Bool) (record : Entry) (group : FilterGroup) : Bool :=
  match group with
  | .mk op conds groups =>
    if conds.isEmpty && groups.isEmpty then true
    else if op = OpAnd then
      conds.all (fun c => mc record c) && memAllGroups mc record groups
    else if op = OpOr then
      conds.any (fun c => mc record c) || memAnyGroups mc record groups
    else if op = OpNot then
      !(conds.any (fun c => mc record c)) && !(memAnyGroups mc record groups)
    else false

/-- The subgroup loop of the `AND` branch of `MemoryStore.matchesFilter`. -/
def memAllGroups (mc : Entry → Condition → Bool) (record : Entry) (gs : List FilterGroup) : Bool :=
  match gs with
  | [] => true
  | g :: rest => memMatchesFilter mc record g && memAllGroups mc record rest

/-- The subgroup loops of the `OR` and `NOT` branches of
`MemoryStore.matchesFilter`. -/
def memAnyGroups (mc : Entry → Condition → Bool) (record : Entry) (gs : List FilterGroup) : Bool :=
  match gs with
  | [] => false
  | g :: rest => memMatchesFilter mc record g || memAnyGroups mc record rest

end

/-! ### Filter evaluation: `FileStore.matchesFilter`

From `file_store.go`: defaults an unspecified operator to `AND`, collects
all condition and subgroup results eagerly, then combines. -/

mutual

/-- `FileStore.matchesFilter`: empty operator defaults to `AND`; an empty
group matches everything; `AND` requires all results true and at least one
result; `OR` at least one true; `NOT` negates a single result and with
several results requires none to be true. -/
def fileMatchesFilter (mc : Entry → Condition → Bool) (record : Entry) (group : FilterGroup) : Bool :=
  match group with
  | .mk op0 conds groups =>
    let op := if op0 = "" then OpAnd else op0
    if conds.isEmpty && groups.isEmpty then true
    else
      let allResults := conds.map (fun c => mc record c) ++ fileGroupResults mc record groups
      if op = OpAnd then
        allResults.all (fun r => r) && decide (allResults.length > 0)
      else if op = OpOr then
        allResults.any (fun r => r)
      else if op = OpNot then
        if allResults.length = 1 then !allResults.headI
        else allResults.all (fun r => !r)
      else false

/-- The subgroup result collection loop of `FileStore.matchesFilter`. -/
def fileGroupResults (mc : Entry → Condition → Bool) (record : Entry) (gs : List FilterGroup) : List Bool :=
  match gs with
  | [] => []
  | g :: rest => fileMatchesFilter mc record g :: fileGroupResults mc record rest

end

/-! ### The in-process backend (`MemoryStore`, `memory_store.go`) -/

/-- `MemoryStore`: two partitions, live and deleted.  The mutex only
serializes access and is not part of the functional state. -/
structure MemoryStore where
  records : GoMap Entry
  deletedRecs : GoMap Entry
deriving DecidableEq, Repr

/-- `MemoryStore.AddRecord`: rejects an empty ID and an ID already in the
live partition (only), fills zero timestamps with `now`, stores live. -/
def MemoryStore.AddRecord (m : MemoryStore) (now : GoTime) (record : Entry) : Except String MemoryStore :=
  if record.ID = "" then .error ("knowledge record must have an ID")
  else if mapHas m.records record.ID then
    .error ("knowledge record with ID " ++ record.ID ++ " already exists")
  else
    let record := if record.CreatedAt = 0 then { record with CreatedAt := now } else record
    let record := if record.UpdatedAt = 0 then { record with UpdatedAt := now } else record
    .ok { m with records := mapSet m.records record.ID record }

/-- `MemoryStore.GetRecord`: live partition only. -/
def MemoryStore.GetRecord (m : MemoryStore) (id : String) : Except String Entry :=
  match mapGet m.records id with
  | some record => .ok record
  | none => .error ("knowledge record with ID " ++ id ++ " not found")

/-- `MemoryStore.UpdateRecord`: requires the ID in the live partition; sets
`UpdatedAt` to `now` only when the caller left it zero. -/
def MemoryStore.UpdateRecord (m : MemoryStore) (now : GoTime) (record : Entry) : Except String MemoryStore :=
  if !(mapHas m.records record.ID) then
    .error ("knowledge record with ID " ++ record.ID ++ " not found")
  else
    let record := if record.UpdatedAt = 0 then { record with UpdatedAt := now } else record
    .ok { m with records := mapSet m.records record.ID record }

/-- `MemoryStore.DeleteRecord` (soft delete): moves the record, unchanged,
from the live to the deleted partition. -/
def MemoryStore.DeleteRecord (m : MemoryStore) (id : String) : Except String MemoryStore :=
  match mapGet m.records id with
  | none => .error ("knowledge record with ID " ++ id ++ " not found")
  | some record =>
    .ok { m with deletedRecs := mapSet m.deletedRecs id record,
                 records := mapDel m.records id }

/-- `MemoryStore.RestoreRecord`: moves the record, unchanged, back to the
live partition. -/
def MemoryStore.RestoreRecord (m : MemoryStore) (id : String) : Except String MemoryStore :=
  match mapGet m.deletedRecs id with
  | none => .error ("deleted knowledge record with ID " ++ id ++ " not found")
  | some record =>
    .ok { m with records := mapSet m.records id record,
                 deletedRecs := mapDel m.deletedRecs id }

/-- `MemoryStore.PurgeRecord`: removes the record from whichever partition
holds it (live first). -/
def MemoryStore.PurgeRecord (m : MemoryStore) (id : String) : Except String MemoryStore :=
  if !(mapHas m.records id) && !(mapHas m.deletedRecs id) then
    .error ("knowledge record with ID " ++ id ++ " not found")
  else if mapHas m.records id then
    .ok { m with records := mapDel m.records id }
  else
    .ok { m with deletedRecs := mapDel m.deletedRecs id }

/-- The limit/offset block shared verbatim by `MemoryStore.SearchRecords`
in `memory_store.go` (lines 220-233) and in the `MemoryStore` variant of
`file_store.go` (lines 1011-1024): `start` is clamped from above to the
result length but not from below, and the final Go slice expression can
panic (`none`) for a negative `Offset`. -/
def memApplyLimitOffset (filter : Filter) (results : List Entry) : Option (List Entry) :=
  if filter.Limit > 0 ∨ filter.Offset > 0 then
    let start := if filter.Offset > (results.length : Int) then (results.length : Int) else filter.Offset
    let stop :=
      if filter.Limit > 0 ∧ start + filter.Limit < (results.length : Int) then start + filter.Limit
      else (results.length : Int)
    goIntSlice results start stop
  else
    some results

/-- The scan, filter and sort stages of `MemoryStore.SearchRecords` from
`memory_store.go` (lines 183-217): the live loop skips every record when
`IncludeDeleted` or `OnlyDeleted` is set, both loops apply the root group
only when its operator is non-empty, and the result is sorted when
`OrderBy` is set. -/
def MemoryStore.searchFilteredSorted (mc : Entry → Condition → Bool) (m : MemoryStore) (filter : Filter) : List Entry :=
  let live := (mapVals m.records).filter (fun record =>
    if filter.IncludeDeleted || filter.OnlyDeleted then false
    else if (filter.RootGroup.Operator != "") && !(memMatchesFilter mc record filter.RootGroup) then false
    else true)
  let results :=
    if filter.IncludeDeleted || filter.OnlyDeleted then
      live ++ (mapVals m.deletedRecs).filter (fun record =>
        if (filter.RootGroup.Operator != "") && !(memMatchesFilter mc record filter.RootGroup) then false
        else true)
    else live
  if filter.OrderBy != "" then sortRecords results filter.OrderBy filter.OrderDir
  else results

/-- `MemoryStore.SearchRecords` from `memory_store.go`: filter and sort,
then the limit/offset block.  The Go error result is always `nil`; `none`
models a panic. -/
def MemoryStore.SearchRecords (mc : Entry → Condition → Bool) (m : MemoryStore) (filter : Filter) : Option (List Entry) :=
  memApplyLimitOffset filter (MemoryStore.searchFilteredSorted mc m filter)

/-- The scan, filter and sort stages of the `MemoryStore.SearchRecords`
variant embedded in `file_store.go` (lines 977-1008): identical to
`memory_store.go` except that the live loop runs whenever `OnlyDeleted` is
not set (live records survive an `IncludeDeleted` search here). -/
def MemoryStore.searchFilteredSortedV2 (mc : Entry → Condition → Bool) (m : MemoryStore) (filter : Filter) : List Entry :=
  let live :=
    if !filter.OnlyDeleted then
      (mapVals m.records).filter (fun record =>
        if (filter.RootGroup.Operator != "") && !(memMatchesFilter mc record filter.RootGroup) then false
        else true)
    else []
  let results :=
    if filter.IncludeDeleted || filter.OnlyDeleted then
      live ++ (mapVals m.deletedRecs).filter (fun record =>
        if (filter.RootGroup.Operator != "") && !(memMatchesFilter mc record filter.RootGroup) then false
        else true)
    else live
  if filter.OrderBy != "" then sortRecords results filter.OrderBy filter.OrderDir
  else results

/-- The `MemoryStore.SearchRecords` variant embedded in `file_store.go`
(lines 973-1027). -/
def MemoryStore.SearchRecordsV2 (mc : Entry → Condition → Bool) (m : MemoryStore) (filter : Filter) : Option (List Entry) :=
  memApplyLimitOffset filter (MemoryStore.searchFilteredSortedV2 mc m filter)

/-! ### The file-persisted backend (`FileStore`, `file_store.go`) -/

/-- `FileStore`: the two partitions plus the target file name and the
dirty flag. -/
structure FileStore where
  filename : String
  records : GoMap Entry
  deletedRecs : GoMap Entry
  isDirty : Bool
deriving DecidableEq, Repr

/-- `FileStore.AddRecord`: same checks as the in-process backend (empty ID,
ID already live), fills zero timestamps, stores live, marks dirty. -/
def FileStore.AddRecord (f : FileStore) (now : GoTime) (record : Entry) : Except String FileStore :=
  if record.ID = "" then .error ("knowledge record must have an ID")
  else if mapHas f.records record.ID then
    .error ("knowledge record with ID " ++ record.ID ++ " already exists")
  else
    let record := if record.CreatedAt = 0 then { record with CreatedAt := now } else record
    let record := if record.UpdatedAt = 0 then { record with UpdatedAt := now } else record
    .ok { f with records := mapSet f.records record.ID record, isDirty := true }

/-- `FileStore.GetRecord`: live partition only. -/
def FileStore.GetRecord (f : FileStore) (id : String) : Except String Entry :=
  match mapGet f.records id with
  | some record => .ok record
  | none => .error ("knowledge record with ID " ++ id ++ " not found")

/-- `FileStore.UpdateRecord`: requires the ID in the live partition;
unconditionally sets `UpdatedAt` to `now`; marks dirty. -/
def FileStore.UpdateRecord (f : FileStore) (now : GoTime) (record : Entry) : Except String FileStore :=
  if !(mapHas f.records record.ID) then
    .error ("knowledge record with ID " ++ record.ID ++ " not found")
  else
    let record := { record with UpdatedAt := now }
    .ok { f with records := mapSet f.records record.ID record, isDirty := true }

/-- `FileStore.DeleteRecord` (soft delete): moves the record, unchanged, to
the deleted partition; marks dirty. -/
def FileStore.DeleteRecord (f : FileStore) (id : String) : Except String FileStore :=
  match mapGet f.records id with
  | none => .error ("knowledge record with ID " ++ id ++ " not found")
  | some record =>
    .ok { f with deletedRecs := mapSet f.deletedRecs id record,
                 records := mapDel f.records id, isDirty := true }

/-- `FileStore.RestoreRecord`: moves the record, unchanged, back to the
live partition; marks dirty. -/
def FileStore.RestoreRecord (f : FileStore) (id : String) : Except String FileStore :=
  match mapGet f.deletedRecs id with
  | none => .error ("deleted knowledge record with ID " ++ id ++ " not found")
  | some record =>
    .ok { f with records := mapSet f.records id record,
                 deletedRecs := mapDel f.deletedRecs id, isDirty := true }

/-- `FileStore.PurgeRecord`: removes the record from whichever partition
holds it; marks dirty. -/
def FileStore.PurgeRecord (f : FileStore) (id : String) : Except String FileStore :=
  if !(mapHas f.records id) && !(mapHas f.deletedRecs id) then
    .error ("knowledge record with ID " ++ id ++ " not found")
  else if mapHas f.records id then
    .ok { f with records := mapDel f.records id, isDirty := true }
  else
    .ok { f with deletedRecs := mapDel f.deletedRecs id, isDirty := true }

/-- The scan, filter and sort stages of `FileStore.SearchRecords` (lines
276-305): merges the selected partitions into one scratch map
(`recordsToSearch`), applies `matchesFilter` to every candidate, sorts when
`OrderBy` is set. -/
def FileStore.searchFilteredSorted (mc : Entry → Condition → Bool) (f : FileStore) (filter : Filter) : List Entry :=
  let recordsToSearch : GoMap Entry :=
    let r1 := if !filter.OnlyDeleted then f.records.foldl (fun acc kv => mapSet acc kv.1 kv.2) [] else []
    if filter.IncludeDeleted || filter.OnlyDeleted then
      f.deletedRecs.foldl (fun acc kv => mapSet acc kv.1 kv.2) r1
    else r1
  let results := (mapVals recordsToSearch).filter (fun record => fileMatchesFilter mc record filter.RootGroup)
  if filter.OrderBy != "" then sortRecords results filter.OrderBy filter.OrderDir
  else results

/-- The pagination block of `FileStore.SearchRecords` (lines 307-321): an
`Offset` at or past the end returns the empty page early; otherwise the
offset slice then, when `0 < Limit < len`, the limit slice.  Both Go slice
expressions go through `goIntSlice`. -/
def fileApplyPagination (filter : Filter) (results : List Entry) : Option (List Entry) :=
  if results.length > 0 then
    if filter.Offset > 0 then
      if filter.Offset ≥ (results.length : Int) then some []
      else
        match goIntSlice results filter.Offset (results.length : Int) with
        | none => none
        | some sliced =>
          if filter.Limit > 0 ∧ filter.Limit < (sliced.length : Int) then
            goIntSlice sliced 0 filter.Limit
          else some sliced
    else
      if filter.Limit > 0 ∧ filter.Limit < (results.length : Int) then
        goIntSlice results 0 filter.Limit
      else some results
  else some results

/-- `FileStore.SearchRecords`: filter and sort, then pagination.  The Go
error result is always `nil`; `none` models a panic. -/
def FileStore.SearchRecords (mc : Entry → Condition → Bool) (f : FileStore) (filter : Filter) : Option (List Entry) :=
  fileApplyPagination filter (FileStore.searchFilteredSorted mc f filter)

/-! ### Batch load (`LoadRecords`) -/

/-- The validation loop of `LoadRecords` (identical in `file_store.go`
lines 732-744 and in its `MemoryStore` variant lines 1393-1405): every
input must have a non-empty ID not seen earlier in the batch; the first
offender aborts. -/
def loadRecordsValidate (records : List Entry) (seen : List String) (i : Nat) : Option String :=
  match records with
  | [] => none
  | record :: rest =>
    if record.ID = "" then some ("record at index " ++ toString i ++ " must have an ID")
    else if seen.contains record.ID then
      some ("duplicate record ID found in input: " ++ record.ID)
    else loadRecordsValidate rest (record.ID :: seen) (i + 1)

/-- One iteration of the mutation loop of `LoadRecords`: a new record gets
`CreatedAt := now` when zero; every record gets `UpdatedAt := now` when
zero; the record is stored (insert or in-place update). -/
def loadRecordsStep (now : GoTime) (recs : GoMap Entry) (record : Entry) : GoMap Entry :=
  let exi := mapHas recs record.ID
  let record := if !exi && record.CreatedAt = 0 then { record with CreatedAt := now } else record
  let record := if record.UpdatedAt = 0 then { record with UpdatedAt := now } else record
  mapSet recs record.ID record

/-- The mutation loop of `LoadRecords`, shared verbatim by `file_store.go`
lines 747-767 and its `MemoryStore` variant lines 1408-1428. -/
def loadRecordsApply (now : GoTime) (recs : GoMap Entry) (records : List Entry) : GoMap Entry :=
  records.foldl (loadRecordsStep now) recs

/-- `FileStore.LoadRecords`: empty batch is a no-op; validates the whole
batch before mutating anything; then inserts-or-updates every record and
marks the store dirty. -/
def FileStore.LoadRecords (f : FileStore) (now : GoTime) (records : List Entry) : Except String FileStore :=
  if records.length = 0 then .ok f
  else
    match loadRecordsValidate records [] 0 with
    | some e => .error e
    | none => .ok { f with records := loadRecordsApply now f.records records, isDirty := true }

/-- `MemoryStore.LoadRecords` (the variant in `file_store.go` lines
1383-1431): identical to the file version without the dirty flag. -/
def MemoryStore.LoadRecords (m : MemoryStore) (now : GoTime) (records : List Entry) : Except String MemoryStore :=
  if records.length = 0 then .ok m
  else
    match loadRecordsValidate records [] 0 with
    | some e => .error e
    | none => .ok { m with records := loadRecordsApply now m.records records }

/-! ### File persistence (`flush` / `Flush`)

The file system is modelled as a map from file names to contents; JSON
serialization is a caller-supplied `marshal` function (`none` models a
`json.MarshalIndent` failure); `writeOk` and `renameOk` are the outcomes of
`os.WriteFile` on the temporary file and `os.Rename`.  A failed write may
leave a partial temporary file, which never aliases the live file because
the temporary name is the live name plus `".tmp"`. -/

/-- The file system: file name to contents. -/
abbrev Disk := GoMap String

/-- `fileData` from `file_store.go`: the serialized document shape. -/
structure FileData where
  Records : GoMap Entry
  DeletedRecs : GoMap Entry

/-- `FileStore.flush` (lines 116-142): marshal both maps, write the
temporary file, rename it over the live file, then clear the dirty flag.
Any failure returns the error with the disk and store as they stand. -/
def FileStore.flush (marshal : FileData → Option String) (writeOk renameOk : Bool)
    (disk : Disk) (f : FileStore) : Disk × FileStore × Except String Unit :=
  match marshal { Records := f.records, DeletedRecs := f.deletedRecs } with
  | none => (disk, f, .error ("failed to marshal knowledge data"))
  | some data =>
    let tempFile := f.filename ++ ".tmp"
    if !writeOk then (disk, f, .error ("failed to write knowledge data to temp file"))
    else
      let disk := mapSet disk tempFile data
      if !renameOk then (disk, f, .error ("failed to save knowledge file"))
      else
        (mapSet (mapDel disk tempFile) f.filename data, { f with isDirty := false }, .ok ())

/-- `FileStore.Flush` (lines 105-113): flush only when dirty. -/
def FileStore.Flush (marshal : FileData → Option String) (writeOk renameOk : Bool)
    (disk : Disk) (f : FileStore) : Disk × FileStore × Except String Unit :=
  if f.isDirty then FileStore.flush marshal writeOk renameOk disk f
  else (disk, f, .ok ())

/-! ### The SQL backend (`PgStore`)

The table is keyed by record ID within one tenant (the single `accountID`
of the store instance); a row keeps the record plus the `is_deleted`
column.  `uuidOk` abstracts `uuid.Parse` succeeding on an ID string.
Database round-trips can fail for external reasons; `execOk i` is the
outcome of the round-trips made for the record at batch index `i`, and
`commitOk` the outcome of `tx.Commit`. -/

/-- One `knowledge_entry` row of the tenant of this store instance. -/
structure PgRow where
  entry : Entry
  isDeleted : Bool
deriving DecidableEq, Repr

/-- `fieldToColumnName`: the explicit allow-list from Go struct field names
to column names; unknown fields map to the empty string. -/
def fieldToColumnName (field : String) : String :=
  match field with
  | "ID" => "id"
  | "Category" => "category"
  | "ContentType" => "content_type"
  | "Content" => "content"
  | "Importance" => "importance"
  | "CreatedAt" => "created_at"
  | "UpdatedAt" => "updated_at"
  | "ExpiresAt" => "expires_at"
  | "SourceID" => "source_id"
  | "SourceType" => "source_type"
  | "OwnerID" => "owner_id"
  | "OwnerType" => "owner_type"
  | "SubjectIDs" => "subject_ids"
  | "SubjectType" => "subject_type"
  | "Tags" => "tags"
  | "References" => "references"
  | "Metadata" => "metadata"
  | _ => ""

/-- A single quote character, for the SQL fragments built below. -/
def sq : String := String.singleton (Char.ofNat 39)

/-- A SQL single-quoted literal. -/
def sqlQuote (s : String) : String := sq ++ s ++ sq

/-- A positional parameter placeholder. -/
def dollar (i : Nat) : String := "$" ++ toString i

/-- `PgStore.buildConditionClause`: one condition to a SQL fragment plus
the next parameter index; unknown fields and unsupported field/operator
combinations are query-construction errors. -/
def buildConditionClause (condition : Condition) (paramIndex : Nat) : Except String (String × Nat) :=
  let columnName := fieldToColumnName condition.Field
  if columnName = "" then .error ("unknown field: " ++ condition.Field)
  else
    match condition.Field with
    | "Metadata" =>
      if condition.Operator = "=" ∨ condition.Operator = "!=" then
        match condition.Value with
        | .vAnyMap mapValue =>
          let op := if condition.Operator = "=" then " = " else " != "
          let step := fun (acc : List String × Nat) (kv : String × String) =>
            (acc.1 ++ ["metadata->>" ++ sqlQuote kv.1 ++ op ++ dollar acc.2], acc.2 + 1)
          let built := mapValue.foldl step ([], paramIndex)
          if built.1.length > 0 then
            let joiner := if condition.Operator = "!=" then " OR " else " AND "
            .ok ("(" ++ String.intercalate joiner built.1 ++ ")", built.2)
          else .error ("invalid metadata value format")
        | _ => .error ("invalid metadata value format")
      else if condition.Operator = "CONTAINS" then
        match condition.Value with
        | .vString _ => .ok ("metadata ? " ++ dollar paramIndex, paramIndex + 1)
        | _ => .error ("CONTAINS operator for Metadata requires string value")
      else .error ("unsupported operator " ++ condition.Operator ++ " for field " ++ condition.Field)
    | "Tags" | "SubjectIDs" =>
      if condition.Operator = "=" ∨ condition.Operator = "CONTAINS" then
        .ok (dollar paramIndex ++ " = ANY(" ++ columnName ++ ")", paramIndex + 1)
      else if condition.Operator = "@>" then
        .ok (columnName ++ " @> " ++ dollar paramIndex, paramIndex + 1)
      else .error ("unsupported operator " ++ condition.Operator ++ " for field " ++ condition.Field)
    | "Content" =>
      if condition.Operator = "=" then .ok (columnName ++ " = " ++ dollar paramIndex, paramIndex + 1)
      else if condition.Operator = "!=" then .ok (columnName ++ " != " ++ dollar paramIndex, paramIndex + 1)
      else if condition.Operator = "CONTAINS" then
        .ok ("encode(" ++ columnName ++ ", " ++ sqlQuote ("escape") ++ ") LIKE " ++ sqlQuote ("%") ++
             " || encode(" ++ dollar paramIndex ++ ", " ++ sqlQuote ("escape") ++ ") || " ++ sqlQuote ("%"),
             paramIndex + 1)
      else .error ("unsupported operator " ++ condition.Operator ++ " for field " ++ condition.Field)
    | "CreatedAt" | "UpdatedAt" | "ExpiresAt" =>
      if condition.Operator = "=" then
        .ok (columnName ++ "::date = " ++ dollar paramIndex ++ "::date", paramIndex + 1)
      else if condition.Operator = ">" ∨ condition.Operator = "<" ∨
              condition.Operator = ">=" ∨ condition.Operator = "<=" then
        .ok (columnName ++ " " ++ condition.Operator ++ " " ++ dollar paramIndex, paramIndex + 1)
      else if condition.Operator = "BETWEEN" then
        match condition.Value with
        | .vList 2 =>
          .ok (columnName ++ " BETWEEN " ++ dollar paramIndex ++ " AND " ++ dollar (paramIndex + 1),
               paramIndex + 2)
        | _ => .error ("BETWEEN operator requires array of two values")
      else .error ("unsupported operator " ++ condition.Operator ++ " for field " ++ condition.Field)
    | "References" =>
      if condition.Operator = "CONTAINS" then
        match condition.Value with
        | .vString _ => .ok ("references @> " ++ dollar paramIndex, paramIndex + 1)
        | _ => .error ("CONTAINS operator for References requires string value")
      else .error ("unsupported operator " ++ condition.Operator ++ " for field " ++ condition.Field)
    | _ =>
      if condition.Operator = "=" ∨ condition.Operator = "!=" ∨ condition.Operator = ">" ∨
         condition.Operator = "<" ∨ condition.Operator = ">=" ∨ condition.Operator = "<=" then
        .ok (columnName ++ " " ++ condition.Operator ++ " " ++ dollar paramIndex, paramIndex + 1)
      else if condition.Operator = "LIKE" ∨ condition.Operator = "CONTAINS" then
        .ok (columnName ++ " LIKE " ++ sqlQuote ("%") ++ " || " ++ dollar paramIndex ++ " || " ++ sqlQuote ("%"),
             paramIndex + 1)
      else if condition.Operator = "STARTSWITH" then
        .ok (columnName ++ " LIKE " ++ dollar paramIndex ++ " || " ++ sqlQuote ("%"), paramIndex + 1)
      else if condition.Operator = "ENDSWITH" then
        .ok (columnName ++ " LIKE " ++ sqlQuote ("%") ++ " || " ++ dollar paramIndex, paramIndex + 1)
      else if condition.Operator = "IN" then
        .ok (columnName ++ " IN (select unnest(" ++ dollar paramIndex ++ "::text[]))", paramIndex + 1)
      else if condition.Operator = "IS NULL" then
        .ok (columnName ++ " IS NULL", paramIndex)
      else if condition.Operator = "IS NOT NULL" then
        .ok (columnName ++ " IS NOT NULL", paramIndex)
      else .error ("unsupported operator " ++ condition.Operator ++ " for field " ++ condition.Field)

/-- The condition loop of `PgStore.buildWhereClause`: collects the
non-empty clauses, threading the parameter index. -/
def buildCondClauses (conds : List Condition) (paramIndex : Nat) : Except String (List String × Nat) :=
  match conds with
  | [] => .ok ([], paramIndex)
  | c :: rest =>
    match buildConditionClause c paramIndex with
    | .error e => .error e
    | .ok (clause, next) =>
      match buildCondClauses rest next with
      | .error e => .error e
      | .ok (cls, final) =>
        .ok ((if clause ≠ "" then [clause] else []) ++ cls, final)

mutual

/-- `PgStore.buildWhereClause` (`part_003` lines 715-763): picks the join
operator (`AND`, `OR`, `AND NOT`; anything else defaults to `AND`), builds
the condition clauses threading the parameter index, builds the nested
group clauses (each parenthesized, all at the same parameter index, as in
the source), and joins everything with the operator.  No clause yields the
empty string. -/
def buildWhereClause (group : FilterGroup) (startParamIndex : Nat) : Except String String :=
  match group with
  | .mk op conds groups =>
    let operator :=
      if op = OpAnd then "AND"
      else if op = OpOr then "OR"
      else if op = OpNot then "AND NOT"
      else "AND"
    match buildCondClauses conds startParamIndex with
    | .error e => .error e
    | .ok (condClauses, paramIndex) =>
      match buildGroupClauses groups paramIndex with
      | .error e => .error e
      | .ok groupCls =>
        let clauses := condClauses ++ groupCls
        if clauses.length > 0 then .ok (String.intercalate (" " ++ operator ++ " ") clauses)
        else .ok ""

/-- The nested-group loop of `PgStore.buildWhereClause`. -/
def buildGroupClauses (groups : List FilterGroup) (paramIndex : Nat) : Except String (List String) :=
  match groups with
  | [] => .ok []
  | g :: rest =>
    match buildWhereClause g paramIndex with
    | .error e => .error e
    | .ok nested =>
      match buildGroupClauses rest paramIndex with
      | .error e => .error e
      | .ok cls => .ok ((if nested ≠ "" then ["(" ++ nested ++ ")"] else []) ++ cls)

end

/-- `PgStore.AddRecord` (`part_003` lines 83-168), for an opened store and
a successful database round-trip: rejects an empty or non-UUID ID, then
rejects an ID already present in the table regardless of its `is_deleted`
flag (the existence query has no `is_deleted` condition), fills zero
timestamps, and inserts the row with `is_deleted = false`. -/
def PgStore.AddRecord (uuidOk : String → Bool) (tbl : GoMap PgRow) (now : GoTime)
    (record : Entry) : Except String (GoMap PgRow) :=
  if record.ID = "" then .error ("knowledge record must have an ID")
  else if !(uuidOk record.ID) then .error ("invalid record ID format")
  else if mapHas tbl record.ID then
    .error ("knowledge record with ID " ++ record.ID ++ " already exists")
  else
    let record := if record.CreatedAt = 0 then { record with CreatedAt := now } else record
    let record := if record.UpdatedAt = 0 then { record with UpdatedAt := now } else record
    .ok (mapSet tbl record.ID { entry := record, isDeleted := false })

/-- The validation loop of `PgStore.LoadRecords` (`part_003` lines
1070-1088): non-empty ID, well-formed UUID, no duplicate within the batch. -/
def pgLoadValidate (uuidOk : String → Bool) (records : List Entry) (seen : List String) (i : Nat) : Option String :=
  match records with
  | [] => none
  | record :: rest =>
    if record.ID = "" then some ("record at index " ++ toString i ++ " must have an ID")
    else if !(uuidOk record.ID) then
      some ("record at index " ++ toString i ++ " has invalid UUID format")
    else if seen.contains record.ID then
      some ("duplicate record ID found in input: " ++ record.ID)
    else pgLoadValidate uuidOk rest (record.ID :: seen) (i + 1)

/-- One iteration of the transaction loop of `PgStore.LoadRecords`: an
existing row is updated in place (the update statement does not touch
`created_at` or `is_deleted`); a new row is inserted with
`is_deleted = false`; timestamps auto-populate as in the other backends. -/
def pgLoadStep (now : GoTime) (tx : GoMap PgRow) (record : Entry) : GoMap PgRow :=
  match mapGet tx record.ID with
  | some old =>
    let record := if record.UpdatedAt = 0 then { record with UpdatedAt := now } else record
    mapSet tx record.ID { entry := { record with CreatedAt := old.entry.CreatedAt },
                          isDeleted := old.isDeleted }
  | none =>
    let record := if record.CreatedAt = 0 then { record with CreatedAt := now } else record
    let record := if record.UpdatedAt = 0 then { record with UpdatedAt := now } else record
    mapSet tx record.ID { entry := record, isDeleted := false }

/-- The transaction loop of `PgStore.LoadRecords`: `execOk i` is the
outcome of the database round-trips for the record at index `i`; any
failure aborts (the deferred rollback then discards the staged rows). -/
def pgLoadLoop (execOk : Nat → Bool) (now : GoTime) (tx : GoMap PgRow) (records : List Entry)
    (i : Nat) : Except String (GoMap PgRow) :=
  match records with
  | [] => .ok tx
  | record :: rest =>
    if !(execOk i) then .error ("failed to load record " ++ record.ID)
    else pgLoadLoop execOk now (pgLoadStep now tx record) rest (i + 1)

/-- `PgStore.LoadRecords` (`part_003` lines 1056-1195), for an opened
store: empty batch is a no-op; full validation precedes the transaction;
every staged row becomes visible only when the transaction commits, and any
failure (validation, a per-record round-trip, or the commit) leaves the
table exactly as it was. -/
def PgStore.LoadRecords (uuidOk : String → Bool) (execOk : Nat → Bool) (commitOk : Bool)
    (tbl : GoMap PgRow) (now : GoTime) (records : List Entry) : Except String (GoMap PgRow) :=
  if records.length = 0 then .ok tbl
  else
    match pgLoadValidate uuidOk records [] 0 with
    | some e => .error e
    | none =>
      match pgLoadLoop execOk now tbl records 0 with
      | .error e => .error e
      | .ok tx => if commitOk then .ok tx else .error ("failed to commit transaction")

/-! ### Helper lemmas about the map model -/

theorem mapGet_mapSet_self {α : Type} (m : GoMap α) (k : String) (v : α) :
    mapGet (mapSet m k v) k = some v := by
  induction m with
  | nil => simp [mapSet, mapGet]
  | cons p rest ih =>
    by_cases h : p.1 = k
    · simp [mapSet, mapGet, h]
    · simp [mapSet, mapGet, h, ih]

theorem mapGet_mapSet_ne {α : Type} (m : GoMap α) (k k' : String) (v : α) (h : k' ≠ k) :
    mapGet (mapSet m k v) k' = mapGet m k' := by
  have h' : ∀ kk : String, kk = k → ¬ kk = k' := by
    intro kk hkk hch
    exact h (hch ▸ hkk)
  induction m with
  | nil => simp [mapSet, mapGet, h' k rfl]
  | cons p rest ih =>
    by_cases hp : p.1 = k
    · subst hp
      simp [mapSet, mapGet, h' p.1 rfl]
    · simp only [mapSet, if_neg hp, mapGet]
      by_cases hp' : p.1 = k'
      · simp [hp']
      · simp [hp', ih]

theorem mapSet_same {α : Type} (m : GoMap α) (k : String) (v : α) (h : mapGet m k = some v) :
    mapSet m k v = m := by
  induction m with
  | nil => simp [mapGet] at h
  | cons p rest ih =>
    by_cases hp : p.1 = k
    · simp only [mapGet, if_pos hp] at h
      cases p
      simp_all [mapSet]
    · simp only [mapGet, if_neg hp] at h
      simp [mapSet, hp, ih h]

theorem foldl_fixed {α β : Type} (g : β → α → β) (M : β) (rs : List α)
    (h : ∀ r ∈ rs, g M r = M) : rs.foldl g M = M := by
  induction rs with
  | nil => rfl
  | cons r rest ih =>
    have h0 : g M r = M := h r (by simp)
    simp only [List.foldl_cons, h0]
    exact ih (fun x hx => h x (by simp [hx]))

/-! ### Helper lemmas about the batch-load loops -/

/-- With non-zero timestamps a load step is a plain map assignment. -/
theorem loadRecordsStep_nonzero (now : GoTime) (recs : GoMap Entry) (r : Entry)
    (h1 : r.CreatedAt ≠ 0) (h2 : r.UpdatedAt ≠ 0) :
    loadRecordsStep now recs r = mapSet recs r.ID r := by
  simp [loadRecordsStep, h1, h2]

/-- With non-zero timestamps the whole mutation loop is a fold of plain
map assignments. -/
theorem loadRecordsApply_nonzero (now : GoTime) (recs : GoMap Entry) (rs : List Entry)
    (h : ∀ r ∈ rs, r.CreatedAt ≠ 0 ∧ r.UpdatedAt ≠ 0) :
    loadRecordsApply now recs rs = rs.foldl (fun m r => mapSet m r.ID r) recs := by
  induction rs generalizing recs with
  | nil => rfl
  | cons r rest ih =>
    have h0 := h r (by simp)
    simp only [loadRecordsApply, List.foldl_cons] at *
    rw [loadRecordsStep_nonzero now recs r h0.1 h0.2]
    exact ih (mapSet recs r.ID r) (fun x hx => h x (by simp [hx]))

theorem mapGet_foldl_set_not_mem (rs : List Entry) (m : GoMap Entry) (k : String)
    (h : k ∉ rs.map (fun r => r.ID)) :
    mapGet (rs.foldl (fun m r => mapSet m r.ID r) m) k = mapGet m k := by
  induction rs generalizing m with
  | nil => rfl
  | cons r rest ih =>
    simp only [List.map_cons, List.mem_cons, not_or] at h
    simp only [List.foldl_cons]
    rw [ih (mapSet m r.ID r) h.2, mapGet_mapSet_ne m r.ID k r h.1]

theorem mapGet_foldl_set_of_nodup (rs : List Entry) (m : GoMap Entry) (r : Entry)
    (hnd : (rs.map (fun r => r.ID)).Nodup) (hr : r ∈ rs) :
    mapGet (rs.foldl (fun m r => mapSet m r.ID r) m) r.ID = some r := by
  induction rs generalizing m with
  | nil => simp at hr
  | cons r0 rest ih =>
    simp only [List.map_cons, List.nodup_cons] at hnd
    simp only [List.foldl_cons]
    rcases List.mem_cons.1 hr with h0 | h0
    · subst h0
      rw [mapGet_foldl_set_not_mem rest (mapSet m r.ID r) r.ID hnd.1,
        mapGet_mapSet_self]
    · exact ih (mapSet m r0.ID r0) hnd.2 h0

/-- Characterization of the validation loop: it accepts exactly the
batches whose IDs are all non-empty, absent from `seen` and mutually
distinct. -/
theorem loadRecordsValidate_none_iff (rs : List Entry) (seen : List String) (i : Nat) :
    loadRecordsValidate rs seen i = none ↔
      ((∀ r ∈ rs, r.ID ≠ "" ∧ r.ID ∉ seen) ∧ (rs.map (fun r => r.ID)).Nodup) := by
  induction rs generalizing seen i with
  | nil => simp [loadRecordsValidate]
  | cons r rest ih =>
    simp only [loadRecordsValidate]
    by_cases h1 : r.ID = ""
    · simp [h1]
    · simp only [if_neg h1]
      by_cases h2 : seen.contains r.ID
      · have h2' : r.ID ∈ seen := by simpa using h2
        simp only [if_pos h2]
        constructor
        · intro h
          exact absurd h (by simp)
        · rintro ⟨hall, _⟩
          exact absurd h2' (hall r (by simp)).2
      · have h2' : r.ID ∉ seen := by simpa using h2
        simp only [if_neg h2, ih, List.map_cons, List.nodup_cons]
        constructor
        · rintro ⟨hall, hnd⟩
          refine ⟨?_, ?_, hnd⟩
          · intro x hx
            rcases List.mem_cons.1 hx with hx0 | hx0
            · subst hx0; exact ⟨h1, h2'⟩
            · have := hall x hx0
              exact ⟨this.1, fun hc => this.2 (by simp [hc])⟩
          · intro hc
            rcases List.mem_map.1 hc with ⟨x, hx, hxid⟩
            exact (hall x hx).2 (by simp [hxid])
        · rintro ⟨hall, hid, hnd⟩
          refine ⟨?_, hnd⟩
          intro x hx
          have hx' := hall x (by simp [hx])
          refine ⟨hx'.1, ?_⟩
          simp only [List.mem_cons, not_or]
          refine ⟨?_, hx'.2⟩
          intro hxe
          exact hid (List.mem_map.2 ⟨x, hx, hxe⟩)

/-- Characterization of the Postgres validation loop. -/
theorem pgLoadValidate_none_iff (uuidOk : String → Bool) (rs : List Entry) (seen : List String) (i : Nat) :
    pgLoadValidate uuidOk rs seen i = none ↔
      ((∀ r ∈ rs, r.ID ≠ "" ∧ uuidOk r.ID = true ∧ r.ID ∉ seen) ∧
        (rs.map (fun r => r.ID)).Nodup) := by
  induction rs generalizing seen i with
  | nil => simp [pgLoadValidate]
  | cons r rest ih =>
    simp only [pgLoadValidate]
    by_cases h1 : r.ID = ""
    · simp [h1]
    · simp only [if_neg h1]
      by_cases hu : uuidOk r.ID
      · simp only [hu, Bool.not_true, Bool.false_eq_true, if_false]
        by_cases h2 : seen.contains r.ID
        · have h2' : r.ID ∈ seen := by simpa using h2
          simp only [if_pos h2]
          constructor
          · intro h
            exact absurd h (by simp)
          · rintro ⟨hall, _⟩
            exact absurd h2' (hall r (by simp)).2.2
        · have h2' : r.ID ∉ seen := by simpa using h2
          simp only [if_neg h2, ih, List.map_cons, List.nodup_cons]
          constructor
          · rintro ⟨hall, hnd⟩
            refine ⟨?_, ?_, hnd⟩
            · intro x hx
              rcases List.mem_cons.1 hx with hx0 | hx0
              · subst hx0; exact ⟨h1, hu, h2'⟩
              · have := hall x hx0
                exact ⟨this.1, this.2.1, fun hc => this.2.2 (by simp [hc])⟩
            · intro hc
              rcases List.mem_map.1 hc with ⟨x, hx, hxid⟩
              exact (hall x hx).2.2 (by simp [hxid])
          · rintro ⟨hall, hid, hnd⟩
            refine ⟨?_, hnd⟩
            intro x hx
            have hx' := hall x (by simp [hx])
            refine ⟨hx'.1, hx'.2.1, ?_⟩
            simp only [List.mem_cons, not_or]
            refine ⟨?_, hx'.2.2⟩
            intro hxe
            exact hid (List.mem_map.2 ⟨x, hx, hxe⟩)
      · simp only [hu]
        constructor
        · intro h
          exact absurd h (by simp)
        · rintro ⟨hall, _⟩
          have := (hall r (by simp)).2.1
          simp [this] at hu

/-! ### Helper lemmas about the Postgres batch-load loop -/

/-- A load step never touches keys other than the ID of its record. -/
theorem mapGet_pgLoadStep_ne (now : GoTime) (tx : GoMap PgRow) (r : Entry) (k : String)
    (h : k ≠ r.ID) : mapGet (pgLoadStep now tx r) k = mapGet tx k := by
  unfold pgLoadStep
  cases mapGet tx r.ID with
  | some old =>
    simp only []
    by_cases hu : r.UpdatedAt = 0 <;> simp [hu, mapGet_mapSet_ne _ _ _ _ h]
  | none =>
    simp only []
    by_cases hc : r.CreatedAt = 0 <;> by_cases hu : r.UpdatedAt = 0 <;>
      simp [hc, hu, mapGet_mapSet_ne _ _ _ _ h]

theorem mapGet_foldl_pgLoadStep_not_mem (now : GoTime) (rs : List Entry) (tx : GoMap PgRow)
    (k : String) (h : k ∉ rs.map (fun r => r.ID)) :
    mapGet (rs.foldl (pgLoadStep now) tx) k = mapGet tx k := by
  induction rs generalizing tx with
  | nil => rfl
  | cons r rest ih =>
    simp only [List.map_cons, List.mem_cons, not_or] at h
    simp only [List.foldl_cons]
    rw [ih (pgLoadStep now tx r) h.2, mapGet_pgLoadStep_ne now tx r k h.1]

/-- With non-zero timestamps, a load step stores a row whose entry is the
input record up to `CreatedAt`, under the record ID. -/
theorem pgLoadStep_nonzero_shape (now : GoTime) (tx : GoMap PgRow) (r : Entry)
    (h1 : r.CreatedAt ≠ 0) (h2 : r.UpdatedAt ≠ 0) :
    ∃ c d, pgLoadStep now tx r = mapSet tx r.ID { entry := { r with CreatedAt := c }, isDeleted := d } := by
  unfold pgLoadStep
  cases mapGet tx r.ID with
  | some old => exact ⟨old.entry.CreatedAt, old.isDeleted, by simp [h2]⟩
  | none =>
    refine ⟨r.CreatedAt, false, ?_⟩
    simp [h1, h2]

/-- After the transaction loop, every batch record with non-zero
timestamps is stored (up to `CreatedAt` and the deletion flag) under its
own ID, provided the batch IDs are distinct. -/
theorem mapGet_foldl_pgLoadStep_of_nodup (now : GoTime) (rs : List Entry) (tx : GoMap PgRow)
    (r : Entry) (hnd : (rs.map (fun r => r.ID)).Nodup) (hr : r ∈ rs)
    (hts : ∀ x ∈ rs, x.CreatedAt ≠ 0 ∧ x.UpdatedAt ≠ 0) :
    ∃ c d, mapGet (rs.foldl (pgLoadStep now) tx) r.ID =
      some { entry := { r with CreatedAt := c }, isDeleted := d } := by
  induction rs generalizing tx with
  | nil => simp at hr
  | cons r0 rest ih =>
    simp only [List.map_cons, List.nodup_cons] at hnd
    simp only [List.foldl_cons]
    rcases List.mem_cons.1 hr with h0 | h0
    · subst h0
      have hts0 := hts r (by simp)
      obtain ⟨c, d, hstep⟩ := pgLoadStep_nonzero_shape now tx r hts0.1 hts0.2
      refine ⟨c, d, ?_⟩
      rw [mapGet_foldl_pgLoadStep_not_mem now rest (pgLoadStep now tx r) r.ID hnd.1, hstep,
        mapGet_mapSet_self]
    · exact ih (pgLoadStep now tx r0) hnd.2 h0 (fun x hx => hts x (by simp [hx]))

/-- A second load step over an already-loaded row is the identity. -/
theorem pgLoadStep_fixed (now : GoTime) (tx : GoMap PgRow) (r : Entry) (c : GoTime) (d : Bool)
    (h : mapGet tx r.ID = some { entry := { r with CreatedAt := c }, isDeleted := d })
    (h2 : r.UpdatedAt ≠ 0) :
    pgLoadStep now tx r = tx := by
  unfold pgLoadStep
  rw [h]
  simp only [if_neg h2]
  exact mapSet_same tx r.ID _ h

/-- When every round-trip succeeds the transaction loop is the fold of the
per-record steps. -/
theorem pgLoadLoop_ok (execOk : Nat → Bool) (hall : ∀ j, execOk j = true)
    (now : GoTime) (rs : List Entry) (tx : GoMap PgRow) (i : Nat) :
    pgLoadLoop execOk now tx rs i = .ok (rs.foldl (pgLoadStep now) tx) := by
  induction rs generalizing tx i with
  | nil => rfl
  | cons r rest ih => simp [pgLoadLoop, hall i, ih]

/-- A failing round-trip inside the batch aborts the transaction loop. -/
theorem pgLoadLoop_err (execOk : Nat → Bool) (now : GoTime) (rs : List Entry) (tx : GoMap PgRow)
    (i : Nat) (h : ∃ j, j < rs.length ∧ execOk (i + j) = false) :
    ∃ e, pgLoadLoop execOk now tx rs i = .error e := by
  induction rs generalizing tx i with
  | nil =>
    obtain ⟨j, hj, _⟩ := h
    simp at hj
  | cons r rest ih =>
    by_cases h0 : execOk i
    · obtain ⟨j, hj, hje⟩ := h
      have hj0 : j ≠ 0 := by
        intro hj0
        rw [hj0, Nat.add_zero] at hje
        rw [h0] at hje
        cases hje
      obtain ⟨j', rfl⟩ := Nat.exists_eq_succ_of_ne_zero hj0
      have hrest : ∃ j, j < rest.length ∧ execOk (i + 1 + j) = false := by
        refine ⟨j', by simpa using hj, ?_⟩
        rw [show i + 1 + j' = i + (j' + 1) by omega]
        exact hje
      obtain ⟨e, he⟩ := ih (pgLoadStep now tx r) (i + 1) hrest
      exact ⟨e, by simp [pgLoadLoop, h0, he]⟩
    · refine ⟨"failed to load record " ++ r.ID, ?_⟩
      simp only [pgLoadLoop]
      rw [show execOk i = false by simpa using h0]
      rfl

/-! ### Helper lemmas about the pagination stages -/

/-- A Go slice with verified bounds. -/
theorem goIntSlice_some {α : Type} (l : List α) (low high : Int)
    (h : 0 ≤ low ∧ low ≤ high ∧ high ≤ (l.length : Int)) :
    goIntSlice l low high = some ((l.take high.toNat).drop low.toNat) := by
  simp [goIntSlice, h]

/-- The full-length Go slice `s[low:len(s)]` is `List.drop`. -/
theorem goIntSlice_drop {α : Type} (l : List α) (low : Int)
    (h : 0 ≤ low ∧ low ≤ (l.length : Int)) :
    goIntSlice l low (l.length : Int) = some (l.drop low.toNat) := by
  rw [goIntSlice_some l low (l.length : Int) ⟨h.1, h.2, le_refl _⟩]
  simp

/-- The limit step of the file-backend pagination never panics. -/
theorem fileLimitSlice_isSome (lim : Int) (l : List Entry) :
    (if lim > 0 ∧ lim < (l.length : Int) then goIntSlice l 0 lim else some l).isSome := by
  by_cases hl : lim > 0 ∧ lim < (l.length : Int)
  · rw [if_pos hl, goIntSlice_some l 0 lim (by omega)]
    rfl
  · rw [if_neg hl]
    rfl

/-- The limit/offset block of the in-process backends never panics when
the offset is non-negative or no positive limit is set. -/
theorem memApplyLimitOffset_isSome (filter : Filter) (rs : List Entry)
    (h : 0 ≤ filter.Offset ∨ filter.Limit ≤ 0) :
    (memApplyLimitOffset filter rs).isSome := by
  unfold memApplyLimitOffset
  by_cases hb : filter.Limit > 0 ∨ filter.Offset > 0
  · have hoff : 0 ≤ filter.Offset := by
      rcases h with h | h
      · exact h
      · rcases hb with hb | hb <;> omega
    rw [if_pos hb]
    dsimp only
    by_cases hgt : filter.Offset > (rs.length : Int)
    · rw [if_pos hgt]
      by_cases hst : filter.Limit > 0 ∧ (rs.length : Int) + filter.Limit < (rs.length : Int)
      · omega
      · rw [if_neg hst, goIntSlice_some rs _ _ (by omega)]
        rfl
    · rw [if_neg hgt]
      by_cases hst : filter.Limit > 0 ∧ filter.Offset + filter.Limit < (rs.length : Int)
      · rw [if_pos hst, goIntSlice_some rs _ _ (by omega)]
        rfl
      · rw [if_neg hst, goIntSlice_some rs _ _ (by omega)]
        rfl
  · rw [if_neg hb]
    rfl

/-- The limit/offset block returns the empty page when the offset is at or
past the end of the results. -/
theorem memApplyLimitOffset_offset_ge (filter : Filter) (rs : List Entry)
    (h : filter.Offset ≥ (rs.length : Int)) :
    memApplyLimitOffset filter rs = some [] := by
  unfold memApplyLimitOffset
  by_cases hb : filter.Limit > 0 ∨ filter.Offset > 0
  · rw [if_pos hb]
    by_cases hgt : filter.Offset > (rs.length : Int)
    · rw [if_pos hgt]
      dsimp only
      rw [if_neg (by omega :
        ¬ (filter.Limit > 0 ∧ (rs.length : Int) + filter.Limit < (rs.length : Int))),
        goIntSlice_some rs _ _ (by omega)]
      simp
    · have hoe : filter.Offset = (rs.length : Int) := by omega
      rw [if_neg hgt, hoe]
      dsimp only
      rw [if_neg (by omega :
        ¬ (filter.Limit > 0 ∧ (rs.length : Int) + filter.Limit < (rs.length : Int))),
        goIntSlice_some rs _ _ (by omega)]
      simp
  · have hlen : rs.length = 0 := by omega
    rw [List.length_eq_zero] at hlen
    rw [if_neg hb, hlen]

/-- With no positive limit, the limit/offset block returns the
offset-adjusted tail of the results. -/
theorem memApplyLimitOffset_limit_nonpos (filter : Filter) (rs : List Entry)
    (h : filter.Limit ≤ 0) :
    memApplyLimitOffset filter rs = some (rs.drop filter.Offset.toNat) := by
  unfold memApplyLimitOffset
  by_cases hb : filter.Limit > 0 ∨ filter.Offset > 0
  · have hoff : filter.Offset > 0 := by omega
    rw [if_pos hb]
    dsimp only
    by_cases hgt : filter.Offset > (rs.length : Int)
    · rw [if_pos hgt, if_neg (by omega :
        ¬ (filter.Limit > 0 ∧ (rs.length : Int) + filter.Limit < (rs.length : Int))),
        goIntSlice_some rs _ _ (by omega)]
      have hdrop : rs.drop filter.Offset.toNat = [] := by
        rw [List.drop_eq_nil_iff]
        omega
      simp [hdrop]
    · rw [if_neg hgt, if_neg (by omega :
        ¬ (filter.Limit > 0 ∧ filter.Offset + filter.Limit < (rs.length : Int))),
        goIntSlice_drop rs _ (by omega)]
  · have hoff2 : filter.Offset.toNat = 0 := by omega
    rw [if_neg hb, hoff2, List.drop_zero]

/-- The file-backend pagination block never panics. -/
theorem fileApplyPagination_isSome (filter : Filter) (rs : List Entry) :
    (fileApplyPagination filter rs).isSome := by
  unfold fileApplyPagination
  by_cases hlen : rs.length > 0
  · rw [if_pos hlen]
    by_cases hoff : filter.Offset > 0
    · rw [if_pos hoff]
      by_cases hge : filter.Offset ≥ (rs.length : Int)
      · rw [if_pos hge]
        rfl
      · rw [if_neg hge, goIntSlice_drop rs _ (by omega)]
        exact fileLimitSlice_isSome filter.Limit _
    · rw [if_neg hoff]
      exact fileLimitSlice_isSome filter.Limit rs
  · rw [if_neg hlen]
    rfl

/-- The file-backend pagination block returns the empty page when the
offset is at or past the end of the results. -/
theorem fileApplyPagination_offset_ge (filter : Filter) (rs : List Entry)
    (h : filter.Offset ≥ (rs.length : Int)) :
    fileApplyPagination filter rs = some [] := by
  unfold fileApplyPagination
  by_cases hlen : rs.length > 0
  · have hoff : filter.Offset > 0 := by omega
    rw [if_pos hlen, if_pos hoff, if_pos h]
  · have hl0 : rs.length = 0 := by omega
    rw [List.length_eq_zero] at hl0
    rw [if_neg hlen, hl0]

/-- With no positive limit, the file-backend pagination block returns the
offset-adjusted tail of the results. -/
theorem fileApplyPagination_limit_nonpos (filter : Filter) (rs : List Entry)
    (h : filter.Limit ≤ 0) :
    fileApplyPagination filter rs = some (rs.drop filter.Offset.toNat) := by
  unfold fileApplyPagination
  by_cases hlen : rs.length > 0
  · rw [if_pos hlen]
    by_cases hoff : filter.Offset > 0
    · rw [if_pos hoff]
      by_cases hge : filter.Offset ≥ (rs.length : Int)
      · rw [if_pos hge]
        have hdrop : rs.drop filter.Offset.toNat = [] := by
          rw [List.drop_eq_nil_iff]
          omega
        rw [hdrop]
      · rw [if_neg hge, goIntSlice_drop rs _ (by omega)]
        dsimp only
        rw [if_neg (by omega :
          ¬ (filter.Limit > 0 ∧ filter.Limit < ((rs.drop filter.Offset.toNat).length : Int)))]
    · rw [if_neg hoff, if_neg (by omega :
        ¬ (filter.Limit > 0 ∧ filter.Limit < (rs.length : Int)))]
      have hoff2 : filter.Offset.toNat = 0 := by omega
      rw [hoff2, List.drop_zero]
  · have hl0 : rs.length = 0 := by omega
    rw [List.length_eq_zero] at hl0
    rw [if_neg hlen, hl0]
    simp


/-- The temporary file name used by `flush` never aliases the live file. -/
theorem tmpFile_ne (s : String) : s ++ ".tmp" ≠ s := by
  intro h
  have hl := congrArg String.length h
  rw [String.length_append] at hl
  have : (".tmp" : String).length = 4 := by decide
  omega

/-! ### Concrete fixtures for the claim theorems -/

/-- A condition matcher under which every condition matches (for example
the real matcher on a condition the record satisfies, such as
`Category = "fact"` on a record of that category). -/
def mcAlways : Entry → Condition → Bool := fun _ _ => true

/-- A condition matcher under which no condition matches (for example the
real matcher on `Category = "x"` against a record of another category). -/
def mcNever : Entry → Condition → Bool := fun _ _ => false

/-- A record with ID `a` and zero timestamps. -/
def entryA : Entry := { zeroEntry with ID := "a" }

/-- A record with ID `b` and zero timestamps. -/
def entryB : Entry := { zeroEntry with ID := "b" }

/-- `entryA` as stored by an add at time 1. -/
def entryA1 : Entry := { entryA with CreatedAt := 1, UpdatedAt := 1 }

/-- `entryB` as stored by an add at time 2. -/
def entryB2 : Entry := { entryB with CreatedAt := 2, UpdatedAt := 2 }

/-- A store state with `a` live and `b` soft-deleted. -/
def memAB : MemoryStore := { records := [("a", entryA1)], deletedRecs := [("b", entryB2)] }

/-- The same state for the file backend. -/
def fileAB : FileStore :=
  { filename := "knowledge.json", records := [("a", entryA1)], deletedRecs := [("b", entryB2)],
    isDirty := true }

/-- The empty file-backend state. -/
def fileEmpty : FileStore :=
  { filename := "knowledge.json", records := [], deletedRecs := [], isDirty := false }

/-- The condition `Category = "fact"`. -/
def condCategoryFact : Condition := { Field := "Category", Operator := "=", Value := .vString ("fact") }

/-- The condition `Category = "x"`. -/
def condCategoryX : Condition := { Field := "Category", Operator := "=", Value := .vString ("x") }

/-! ### Claim C1 -/

/-- Claim C1 (code bug in `MemoryStore.SearchRecords`, `memory_store.go`
lines 186-199).  After adding `a` and `b` and soft-deleting `b`: the
default search excludes the deleted record and the `OnlyDeleted` search
returns exactly it, as the claim states; but a search with
`IncludeDeleted = true` and `OnlyDeleted = false` returns only the deleted
record — the live-record loop executes `continue` for every record
whenever either flag is set, against its own comment ("Skip deleted
records unless explicitly included"), so live records are dropped.  The
`FileStore` backend (and the `MemoryStore` variant inside `file_store.go`)
return both partitions for the same state and filter. -/
theorem claim_C1_memory_includeDeleted_drops_live :
    (((MemoryStore.AddRecord { records := [], deletedRecs := [] } 1 entryA).bind
        (fun m => MemoryStore.AddRecord m 2 entryB)).bind
        (fun m => MemoryStore.DeleteRecord m ("b")) = .ok memAB) ∧
    MemoryStore.SearchRecords mcAlways memAB zeroFilter = some [entryA1] ∧
    MemoryStore.SearchRecords mcAlways memAB { zeroFilter with OnlyDeleted := true } = some [entryB2] ∧
    MemoryStore.SearchRecords mcAlways memAB { zeroFilter with IncludeDeleted := true } = some [entryB2] ∧
    MemoryStore.SearchRecordsV2 mcAlways memAB { zeroFilter with IncludeDeleted := true }
      = some [entryA1, entryB2] ∧
    FileStore.SearchRecords mcAlways fileAB { zeroFilter with IncludeDeleted := true }
      = some [entryA1, entryB2] :=
  ⟨rfl, by decide, by decide, by decide, by decide, by decide⟩

/-! ### Claim C5 -/

/-- Claim C5 (code bug in `MemoryStore.AddRecord` and `FileStore.AddRecord`).
`AddRecord` only checks the live partition for the ID, so after add,
soft-delete and a second add of the same ID, both in-process backends hold
the ID in the live *and* the deleted partition at once — breaking the
one-partition invariant.  The Postgres backend checks existence without an
`is_deleted` condition and rejects the same sequence. -/
theorem claim_C5_add_resurrects_deleted_id :
    (((MemoryStore.AddRecord { records := [], deletedRecs := [] } 1 entryA).bind
        (fun m => MemoryStore.DeleteRecord m ("a"))).bind
        (fun m => MemoryStore.AddRecord m 3 entryA)
      = .ok { records := [("a", { entryA with CreatedAt := 3, UpdatedAt := 3 })],
              deletedRecs := [("a", entryA1)] }) ∧
    (((FileStore.AddRecord fileEmpty 1 entryA).bind
        (fun f => FileStore.DeleteRecord f ("a"))).bind
        (fun f => FileStore.AddRecord f 3 entryA)
      = .ok { filename := "knowledge.json",
              records := [("a", { entryA with CreatedAt := 3, UpdatedAt := 3 })],
              deletedRecs := [("a", entryA1)],
              isDirty := true }) ∧
    (PgStore.AddRecord (fun _ => true) [("a", { entry := entryA1, isDeleted := true })] 3 entryA
      = .error ("knowledge record with ID a already exists")) :=
  ⟨rfl, rfl, rfl⟩

/-! ### Claim C10, counterexample -/

/-- Counterexample to claim C10: on both in-process `SearchRecords`
variants, a filter with `Offset = -1` and `Limit = 1` reaches the final
slice expression with a negative lower bound (`start` is clamped from
above only), which panics in Go (`none` in the model) — even on an empty
store. -/
theorem claim_C10_memory_negative_offset :
    MemoryStore.SearchRecords mcAlways { records := [], deletedRecs := [] }
      { zeroFilter with Offset := -1, Limit := 1 } = none ∧
    MemoryStore.SearchRecordsV2 mcAlways { records := [], deletedRecs := [] }
      { zeroFilter with Offset := -1, Limit := 1 } = none := by
  decide

/-! ### Claim C3, counterexample -/

/-- Counterexample to claim C3: on the in-process backend a root group
with the empty operator and a non-matching condition does *not* exclude
the record — `SearchRecords` skips filter evaluation entirely when
`RootGroup.Operator` is empty, and `matchesFilter` itself sends a
non-empty group with the empty operator to the `default` branch (no
match), not to `AND`.  Only the file backend defaults the operator to
`AND` (under which the same record is excluded). -/
theorem claim_C3_memory_empty_operator_includes :
    MemoryStore.SearchRecords mcNever { records := [("a", entryA1)], deletedRecs := [] }
      { zeroFilter with RootGroup := .mk "" [condCategoryX] [] } = some [entryA1] ∧
    memMatchesFilter mcAlways entryA1 (.mk "" [condCategoryX] []) = false ∧
    fileMatchesFilter mcNever entryA1 (.mk "" [condCategoryX] []) = false := by
  refine ⟨by decide, by decide, by decide⟩

/-! ### Claim C2, counterexample -/

/-- Counterexample to claim C2: for the single-condition group
`NOT (Category = "fact")`, `PgStore.buildWhereClause` emits exactly the
clause it emits for `AND (Category = "fact")` — `category = $2`, with no
negation, because the `NOT` operator only changes the string used to
*join* child clauses — while both in-process evaluators invert the
condition.  The NOT semantics is therefore not applied uniformly by the
SQL backend. -/
theorem claim_C2_sql_not_unnegated :
    buildWhereClause (.mk OpNot [condCategoryFact] []) 2 = .ok ("category = $2") ∧
    buildWhereClause (.mk OpAnd [condCategoryFact] []) 2 = .ok ("category = $2") ∧
    fileMatchesFilter mcAlways { entryA1 with Category := "fact" } (.mk OpNot [condCategoryFact] []) = false ∧
    fileMatchesFilter mcAlways { entryA1 with Category := "fact" } (.mk OpAnd [condCategoryFact] []) = true ∧
    memMatchesFilter mcAlways { entryA1 with Category := "fact" } (.mk OpNot [condCategoryFact] []) = false :=
  ⟨rfl, rfl, by decide, by decide, by decide⟩

/-! ### Claim C4, counterexample -/

/-- Counterexample to claim C4: loading the batch `[a]` (zero timestamps)
twice is *not* idempotent on the file backend.  The first load (at time 5)
populates `CreatedAt = UpdatedAt = 5`; the second load (at time 9) sees
the ID as existing, therefore never populates `CreatedAt`, and stores the
caller record with `CreatedAt = 0` and `UpdatedAt = 9` — the stored state
differs, in particular in `CreatedAt`. -/
theorem claim_C4_load_twice_zero_createdAt :
    (FileStore.LoadRecords fileEmpty 5 [entryA]
      = .ok { fileEmpty with
                records := [("a", { entryA with CreatedAt := 5, UpdatedAt := 5 })],
                isDirty := true }) ∧
    (FileStore.LoadRecords
        { fileEmpty with
            records := [("a", { entryA with CreatedAt := 5, UpdatedAt := 5 })],
            isDirty := true } 9 [entryA]
      = .ok { fileEmpty with
                records := [("a", { entryA with CreatedAt := 0, UpdatedAt := 9 })],
                isDirty := true }) ∧
    ({ fileEmpty with
         records := [("a", { entryA with CreatedAt := 0, UpdatedAt := 9 })],
         isDirty := true } : FileStore)
      ≠ { fileEmpty with
            records := [("a", { entryA with CreatedAt := 5, UpdatedAt := 5 })],
            isDirty := true } :=
  ⟨rfl, rfl, by decide⟩

/-! ### Claim C6, counterexample -/

/-- Counterexample to claim C6: mutations do not always refresh
`UpdatedAt`.  An `UpdateRecord` on the in-process backend performed at
time 9 with a caller-supplied `UpdatedAt = 3` stores 3, not the mutation
time 9; and a `DeleteRecord` moves the record with its `UpdatedAt` (here
1) untouched, whatever the deletion time is. -/
theorem claim_C6_update_keeps_caller_updatedAt :
    (MemoryStore.UpdateRecord { records := [("a", entryA1)], deletedRecs := [] } 9
        { entryA1 with UpdatedAt := 3 }
      = .ok { records := [("a", { entryA1 with UpdatedAt := 3 })], deletedRecs := [] }) ∧
    (3 : GoTime) ≠ 9 ∧
    (MemoryStore.DeleteRecord { records := [("a", entryA1)], deletedRecs := [] } ("a")
      = .ok { records := [], deletedRecs := [("a", entryA1)] }) ∧
    entryA1.UpdatedAt = 1 :=
  ⟨rfl, by decide, rfl, rfl⟩

/-! ### Claim C2, amended -/

/-- On a list of child results, negating a single result and requiring all
results false coincide. -/
theorem allNot_of_single (l : List Bool) :
    (if l.length = 1 then !l.headI else l.all (fun b => !b)) = l.all (fun b => !b) := by
  match l with
  | [] => rfl
  | [b] => simp [List.headI]
  | b :: c :: t => rfl

/-- Claim C2, amended: both in-process evaluators implement `NOT` as
"no child condition or subgroup may match" (which for a single child is
plain inversion), but the SQL clause builder does not: for a single-child
`NOT` group it emits exactly the clause of the corresponding `AND` group,
leaving the child un-negated, so the NOT semantics is not uniform across
backends. -/
theorem claim_C2_not_semantics :
    (∀ (mc : Entry → Condition → Bool) (r : Entry) (cs : List Condition) (gs : List FilterGroup),
      memMatchesFilter mc r (.mk OpNot cs gs) =
        (!(cs.any (fun c => mc r c)) && !(memAnyGroups mc r gs))) ∧
    (∀ (mc : Entry → Condition → Bool) (r : Entry) (cs : List Condition) (gs : List FilterGroup),
      fileMatchesFilter mc r (.mk OpNot cs gs) =
        ((cs.map (fun c => mc r c) ++ fileGroupResults mc r gs).all (fun b => !b))) ∧
    (∀ (mc : Entry → Condition → Bool) (r : Entry) (c : Condition),
      memMatchesFilter mc r (.mk OpNot [c] []) = !(mc r c)) ∧
    (∀ (mc : Entry → Condition → Bool) (r : Entry) (c : Condition),
      fileMatchesFilter mc r (.mk OpNot [c] []) = !(mc r c)) ∧
    (∀ (c : Condition) (i : Nat),
      buildWhereClause (.mk OpNot [c] []) i = buildWhereClause (.mk OpAnd [c] []) i) := by
  have hmem : ∀ (mc : Entry → Condition → Bool) (r : Entry) (cs : List Condition) (gs : List FilterGroup),
      memMatchesFilter mc r (.mk OpNot cs gs) =
        (!(cs.any (fun c => mc r c)) && !(memAnyGroups mc r gs)) := by
    intro mc r cs gs
    rw [memMatchesFilter]
    by_cases h : cs.isEmpty && gs.isEmpty
    · have hcs : cs = [] := by
        rcases cs with _ | ⟨c, cs⟩
        · rfl
        · simp [List.isEmpty] at h
      have hgs : gs = [] := by
        rcases gs with _ | ⟨g, gs⟩
        · rfl
        · simp [List.isEmpty] at h
      subst hcs
      subst hgs
      simp [memAnyGroups]
    · simp [h, OpAnd, OpOr, OpNot]
  have hfile : ∀ (mc : Entry → Condition → Bool) (r : Entry) (cs : List Condition) (gs : List FilterGroup),
      fileMatchesFilter mc r (.mk OpNot cs gs) =
        ((cs.map (fun c => mc r c) ++ fileGroupResults mc r gs).all (fun b => !b)) := by
    intro mc r cs gs
    rw [fileMatchesFilter]
    by_cases h : cs.isEmpty && gs.isEmpty
    · have hcs : cs = [] := by
        rcases cs with _ | ⟨c, cs⟩
        · rfl
        · simp [List.isEmpty] at h
      have hgs : gs = [] := by
        rcases gs with _ | ⟨g, gs⟩
        · rfl
        · simp [List.isEmpty] at h
      subst hcs
      subst hgs
      simp [fileGroupResults]
    · dsimp only
      rw [if_neg h, if_neg (by decide : ¬ (OpNot = "")),
        if_neg (by decide : ¬ (OpNot = OpAnd)), if_neg (by decide : ¬ (OpNot = OpOr)),
        if_pos (rfl : OpNot = OpNot), allNot_of_single]
  refine ⟨hmem, hfile, ?_, ?_, ?_⟩
  · intro mc r c
    rw [hmem]
    simp [memAnyGroups]
  · intro mc r c
    rw [hfile]
    simp [fileGroupResults]
  · intro c i
    rw [buildWhereClause, buildWhereClause]
    simp only [OpAnd, OpOr, OpNot]
    cases hbc : buildConditionClause c i with
    | error e => simp [buildCondClauses, hbc]
    | ok p =>
      simp only [buildCondClauses, hbc]
      by_cases hcl : p.1 ≠ ""
      · simp [buildGroupClauses, hcl, String.intercalate, String.intercalate.go]
      · simp [buildGroupClauses, hcl]

/-! ### Claim C3, amended -/

/-- Claim C3, amended: only the file backend defaults an unspecified group
operator to `AND`.  The in-process backend ignores the filter conditions
entirely when the root operator is empty (its search result does not
depend on the condition matcher at all), and a nested non-empty group with
an empty operator matches nothing. -/
theorem claim_C3_default_operator :
    (∀ (mc : Entry → Condition → Bool) (r : Entry) (cs : List Condition) (gs : List FilterGroup),
      fileMatchesFilter mc r (.mk "" cs gs) = fileMatchesFilter mc r (.mk OpAnd cs gs)) ∧
    (∀ (mc mc2 : Entry → Condition → Bool) (m : MemoryStore) (filter : Filter),
      filter.RootGroup.Operator = "" →
      MemoryStore.SearchRecords mc m filter = MemoryStore.SearchRecords mc2 m filter) ∧
    (∀ (mc : Entry → Condition → Bool) (r : Entry) (cs : List Condition) (gs : List FilterGroup),
      memMatchesFilter mc r (.mk "" cs gs) = (cs.isEmpty && gs.isEmpty)) := by
  refine ⟨?_, ?_, ?_⟩
  · intro mc r cs gs
    rw [fileMatchesFilter, fileMatchesFilter]
    simp [OpAnd]
  · intro mc mc2 m filter h
    unfold MemoryStore.SearchRecords MemoryStore.searchFilteredSorted
    rw [h]
    simp
  · intro mc r cs gs
    rw [memMatchesFilter]
    by_cases h : cs.isEmpty && gs.isEmpty
    · simp [h]
    · simp [h, OpAnd, OpOr, OpNot]

/-- Witness for the amended claim C3, at a concrete store, filter and pair
of condition matchers. -/
theorem claim_C3_default_operator_witness :
    MemoryStore.SearchRecords mcNever { records := [("a", entryA1)], deletedRecs := [] }
        { zeroFilter with RootGroup := .mk "" [condCategoryX] [] }
      = MemoryStore.SearchRecords mcAlways { records := [("a", entryA1)], deletedRecs := [] }
        { zeroFilter with RootGroup := .mk "" [condCategoryX] [] } :=
  claim_C3_default_operator.2.1 mcNever mcAlways
    { records := [("a", entryA1)], deletedRecs := [] }
    { zeroFilter with RootGroup := .mk "" [condCategoryX] [] } rfl

/-! ### Claim C6, amended -/

/-- Claim C6, amended: `AddRecord` populates zero timestamps with the
current time on both in-process backends; `FileStore.UpdateRecord`
unconditionally refreshes `UpdatedAt`; but `MemoryStore.UpdateRecord`
keeps a caller-supplied non-zero `UpdatedAt`, and `DeleteRecord` and
`RestoreRecord` on both backends move the record without touching any
timestamp. -/
theorem claim_C6_timestamps :
    (∀ (m : MemoryStore) (now : GoTime) (r : Entry),
      r.CreatedAt = 0 → r.UpdatedAt = 0 → r.ID ≠ "" → mapHas m.records r.ID = false →
      MemoryStore.AddRecord m now r =
        .ok { m with
                records := mapSet m.records r.ID { r with CreatedAt := now, UpdatedAt := now } }) ∧
    (∀ (f : FileStore) (now : GoTime) (r : Entry),
      r.CreatedAt = 0 → r.UpdatedAt = 0 → r.ID ≠ "" → mapHas f.records r.ID = false →
      FileStore.AddRecord f now r =
        .ok { f with
                records := mapSet f.records r.ID { r with CreatedAt := now, UpdatedAt := now },
                isDirty := true }) ∧
    (∀ (f : FileStore) (now : GoTime) (r : Entry), mapHas f.records r.ID = true →
      FileStore.UpdateRecord f now r =
        .ok { f with
                records := mapSet f.records r.ID { r with UpdatedAt := now },
                isDirty := true }) ∧
    (∀ (m : MemoryStore) (now : GoTime) (r : Entry),
      mapHas m.records r.ID = true → r.UpdatedAt ≠ 0 →
      MemoryStore.UpdateRecord m now r = .ok { m with records := mapSet m.records r.ID r }) ∧
    (∀ (m : MemoryStore) (id : String) (e : Entry), mapGet m.records id = some e →
      MemoryStore.DeleteRecord m id =
        .ok { m with
                deletedRecs := mapSet m.deletedRecs id e,
                records := mapDel m.records id }) ∧
    (∀ (f : FileStore) (id : String) (e : Entry), mapGet f.records id = some e →
      FileStore.DeleteRecord f id =
        .ok { f with
                deletedRecs := mapSet f.deletedRecs id e,
                records := mapDel f.records id,
                isDirty := true }) ∧
    (∀ (m : MemoryStore) (id : String) (e : Entry), mapGet m.deletedRecs id = some e →
      MemoryStore.RestoreRecord m id =
        .ok { m with
                records := mapSet m.records id e,
                deletedRecs := mapDel m.deletedRecs id }) ∧
    (∀ (f : FileStore) (id : String) (e : Entry), mapGet f.deletedRecs id = some e →
      FileStore.RestoreRecord f id =
        .ok { f with
                records := mapSet f.records id e,
                deletedRecs := mapDel f.deletedRecs id,
                isDirty := true }) := by
  refine ⟨?_, ?_, ?_, ?_, ?_, ?_, ?_, ?_⟩
  · intro m now r h1 h2 h3 h4
    simp [MemoryStore.AddRecord, h1, h2, h3, h4]
  · intro f now r h1 h2 h3 h4
    simp [FileStore.AddRecord, h1, h2, h3, h4]
  · intro f now r h
    simp [FileStore.UpdateRecord, h]
  · intro m now r h h2
    simp [MemoryStore.UpdateRecord, h, h2]
  · intro m id e h
    simp [MemoryStore.DeleteRecord, h]
  · intro f id e h
    simp [FileStore.DeleteRecord, h]
  · intro m id e h
    simp [MemoryStore.RestoreRecord, h]
  · intro f id e h
    simp [FileStore.RestoreRecord, h]

/-- Witness for the amended claim C6: a delete at a concrete state moves
the record with `UpdatedAt` untouched, and a zero-timestamp add populates
both timestamps. -/
theorem claim_C6_timestamps_witness :
    (MemoryStore.DeleteRecord { records := [("a", entryA1)], deletedRecs := [] } ("a") =
      .ok { records := [], deletedRecs := [("a", entryA1)] }) ∧
    (MemoryStore.AddRecord { records := [], deletedRecs := [] } 4 entryA =
      .ok { records := [("a", { entryA with CreatedAt := 4, UpdatedAt := 4 })], deletedRecs := [] }) := by
  constructor
  · have h := claim_C6_timestamps.2.2.2.2.1 { records := [("a", entryA1)], deletedRecs := [] }
      ("a") entryA1 (by decide)
    rw [h]
    rfl
  · have h := claim_C6_timestamps.1 { records := [], deletedRecs := [] } 4 entryA
      (by decide) (by decide) (by decide) (by decide)
    rw [h]
    rfl

/-! ### Claim C4, amended -/

/-- Claim C4, amended: `LoadRecords` is idempotent for batches whose
records all carry non-zero `CreatedAt` and `UpdatedAt` — the second load
is a pure in-place update that leaves the stored state (including counts
and `CreatedAt`) exactly as after the first load, on the file and
in-process backends and on the Postgres backend (with all database
round-trips succeeding).  For a record with a zero timestamp the property
fails (see the counterexample): the second load rewrites `UpdatedAt` with
the later time, and the file/in-process backends overwrite the populated
`CreatedAt` with the caller zero. -/
theorem claim_C4_load_idempotent_nonzero :
    ∀ (records : List Entry), (∀ r ∈ records, r.CreatedAt ≠ 0 ∧ r.UpdatedAt ≠ 0) →
      (∀ (f f1 : FileStore) (now1 now2 : GoTime),
        FileStore.LoadRecords f now1 records = .ok f1 →
        FileStore.LoadRecords f1 now2 records = .ok f1) ∧
      (∀ (m m1 : MemoryStore) (now1 now2 : GoTime),
        MemoryStore.LoadRecords m now1 records = .ok m1 →
        MemoryStore.LoadRecords m1 now2 records = .ok m1) ∧
      (∀ (uuidOk : String → Bool) (tbl tbl1 : GoMap PgRow) (now1 now2 : GoTime),
        PgStore.LoadRecords uuidOk (fun _ => true) true tbl now1 records = .ok tbl1 →
        PgStore.LoadRecords uuidOk (fun _ => true) true tbl1 now2 records = .ok tbl1) := by
  intro records hts
  refine ⟨?_, ?_, ?_⟩
  · intro f f1 now1 now2 h
    by_cases hlen : records.length = 0
    · simp only [FileStore.LoadRecords, if_pos hlen]
    · cases hval : loadRecordsValidate records [] 0 with
      | some e => simp [FileStore.LoadRecords, hlen, hval] at h
      | none =>
        have hnd : (records.map (fun r => r.ID)).Nodup :=
          ((loadRecordsValidate_none_iff records [] 0).1 hval).2
        have hLoad : ∀ (g : FileStore) (now : GoTime), FileStore.LoadRecords g now records
            = .ok { g with records := loadRecordsApply now g.records records, isDirty := true } := by
          intro g now
          simp [FileStore.LoadRecords, hlen, hval]
        rw [hLoad] at h
        rw [Except.ok.injEq] at h
        subst h
        rw [hLoad]
        have happ : loadRecordsApply now2 (loadRecordsApply now1 f.records records) records
            = loadRecordsApply now1 f.records records := by
          rw [loadRecordsApply_nonzero now2 _ records hts]
          refine foldl_fixed _ _ _ ?_
          intro r hr
          refine mapSet_same _ _ _ ?_
          rw [loadRecordsApply_nonzero now1 f.records records hts]
          exact mapGet_foldl_set_of_nodup records f.records r hnd hr
        simp [happ]
  · intro m m1 now1 now2 h
    by_cases hlen : records.length = 0
    · simp only [MemoryStore.LoadRecords, if_pos hlen]
    · cases hval : loadRecordsValidate records [] 0 with
      | some e => simp [MemoryStore.LoadRecords, hlen, hval] at h
      | none =>
        have hnd : (records.map (fun r => r.ID)).Nodup :=
          ((loadRecordsValidate_none_iff records [] 0).1 hval).2
        have hLoad : ∀ (g : MemoryStore) (now : GoTime), MemoryStore.LoadRecords g now records
            = .ok { g with records := loadRecordsApply now g.records records } := by
          intro g now
          simp [MemoryStore.LoadRecords, hlen, hval]
        rw [hLoad] at h
        rw [Except.ok.injEq] at h
        subst h
        rw [hLoad]
        have happ : loadRecordsApply now2 (loadRecordsApply now1 m.records records) records
            = loadRecordsApply now1 m.records records := by
          rw [loadRecordsApply_nonzero now2 _ records hts]
          refine foldl_fixed _ _ _ ?_
          intro r hr
          refine mapSet_same _ _ _ ?_
          rw [loadRecordsApply_nonzero now1 m.records records hts]
          exact mapGet_foldl_set_of_nodup records m.records r hnd hr
        simp [happ]
  · intro uuidOk tbl tbl1 now1 now2 h
    by_cases hlen : records.length = 0
    · simp only [PgStore.LoadRecords, if_pos hlen]
    · cases hval : pgLoadValidate uuidOk records [] 0 with
      | some e => simp [PgStore.LoadRecords, hlen, hval] at h
      | none =>
        have hnd : (records.map (fun r => r.ID)).Nodup :=
          ((pgLoadValidate_none_iff uuidOk records [] 0).1 hval).2
        have hLoad : ∀ (g : GoMap PgRow) (now : GoTime),
            PgStore.LoadRecords uuidOk (fun _ => true) true g now records
              = .ok (records.foldl (pgLoadStep now) g) := by
          intro g now
          simp [PgStore.LoadRecords, hlen, hval, pgLoadLoop_ok (fun _ => true) (fun _ => rfl)]
        rw [hLoad] at h
        rw [Except.ok.injEq] at h
        subst h
        rw [hLoad]
        have happ : records.foldl (pgLoadStep now2) (records.foldl (pgLoadStep now1) tbl)
            = records.foldl (pgLoadStep now1) tbl := by
          refine foldl_fixed _ _ _ ?_
          intro r hr
          obtain ⟨c, d, hget⟩ :=
            mapGet_foldl_pgLoadStep_of_nodup now1 records tbl r hnd hr hts
          exact pgLoadStep_fixed now2 _ r c d hget (hts r hr).2
        rw [happ]

/-- Witness for the amended claim C4: the second load of the batch
`[entryA1]` (non-zero timestamps) into the file store is the identity. -/
theorem claim_C4_load_idempotent_nonzero_witness :
    FileStore.LoadRecords { fileEmpty with records := [("a", entryA1)], isDirty := true } 9 [entryA1]
      = .ok { fileEmpty with records := [("a", entryA1)], isDirty := true } :=
  (claim_C4_load_idempotent_nonzero [entryA1] (by decide)).1 fileEmpty
    { fileEmpty with records := [("a", entryA1)], isDirty := true } 7 9 rfl

/-! ### Claim C7 -/

/-- Claim C7: `LoadRecords` validates the whole batch (non-empty,
mutually distinct IDs — plus UUID well-formedness on the SQL path) before
mutating anything, and is all-or-nothing.  On the file and in-process
backends an invalid batch yields an error and a valid batch yields exactly
the post-validation mutation (the error is decided by the input alone,
before any mutation).  On the SQL path, a validation failure, any failing
per-record round-trip, or a failing commit yields an error with the
transaction rolled back; only a fully successful run commits the staged
fold. -/
theorem claim_C7_load_validate_all_or_nothing :
    (∀ (f : FileStore) (now : GoTime) (records : List Entry),
      ((∃ r ∈ records, r.ID = "") ∨ ¬ (records.map (fun r => r.ID)).Nodup) →
      ∃ e, FileStore.LoadRecords f now records = .error e) ∧
    (∀ (f : FileStore) (now : GoTime) (records : List Entry),
      (∀ r ∈ records, r.ID ≠ "") → (records.map (fun r => r.ID)).Nodup →
      FileStore.LoadRecords f now records =
        .ok (if records.length = 0 then f
             else { f with records := loadRecordsApply now f.records records, isDirty := true })) ∧
    (∀ (m : MemoryStore) (now : GoTime) (records : List Entry),
      ((∃ r ∈ records, r.ID = "") ∨ ¬ (records.map (fun r => r.ID)).Nodup) →
      ∃ e, MemoryStore.LoadRecords m now records = .error e) ∧
    (∀ (uuidOk : String → Bool) (execOk : Nat → Bool) (commitOk : Bool) (tbl : GoMap PgRow)
        (now : GoTime) (records : List Entry),
      (((∃ r ∈ records, r.ID = "" ∨ uuidOk r.ID = false) ∨ ¬ (records.map (fun r => r.ID)).Nodup) →
        ∃ e, PgStore.LoadRecords uuidOk execOk commitOk tbl now records = .error e) ∧
      ((∃ j, j < records.length ∧ execOk j = false) →
        ∃ e, PgStore.LoadRecords uuidOk execOk commitOk tbl now records = .error e) ∧
      (commitOk = false → records ≠ [] →
        ∃ e, PgStore.LoadRecords uuidOk execOk commitOk tbl now records = .error e) ∧
      ((∀ r ∈ records, r.ID ≠ "" ∧ uuidOk r.ID = true) → (records.map (fun r => r.ID)).Nodup →
        (∀ j, execOk j = true) → commitOk = true →
        PgStore.LoadRecords uuidOk execOk commitOk tbl now records
          = .ok (records.foldl (pgLoadStep now) tbl))) := by
  refine ⟨?_, ?_, ?_, ?_⟩
  · intro f now records h
    have hlen : ¬ records.length = 0 := by
      intro h0
      rw [List.length_eq_zero] at h0
      subst h0
      rcases h with ⟨r, hr, _⟩ | hnd
      · simp at hr
      · exact hnd List.nodup_nil
    cases hval : loadRecordsValidate records [] 0 with
    | some e => exact ⟨e, by simp [FileStore.LoadRecords, hlen, hval]⟩
    | none =>
      obtain ⟨hprop, hnd⟩ := (loadRecordsValidate_none_iff records [] 0).1 hval
      rcases h with ⟨r, hr, hre⟩ | h
      · exact absurd hre (hprop r hr).1
      · exact absurd hnd h
  · intro f now records h1 h2
    by_cases hlen : records.length = 0
    · simp [FileStore.LoadRecords, hlen]
    · have hval : loadRecordsValidate records [] 0 = none :=
        (loadRecordsValidate_none_iff records [] 0).2 ⟨fun r hr => ⟨h1 r hr, by simp⟩, h2⟩
      simp [FileStore.LoadRecords, hlen, hval]
  · intro m now records h
    have hlen : ¬ records.length = 0 := by
      intro h0
      rw [List.length_eq_zero] at h0
      subst h0
      rcases h with ⟨r, hr, _⟩ | hnd
      · simp at hr
      · exact hnd List.nodup_nil
    cases hval : loadRecordsValidate records [] 0 with
    | some e => exact ⟨e, by simp [MemoryStore.LoadRecords, hlen, hval]⟩
    | none =>
      obtain ⟨hprop, hnd⟩ := (loadRecordsValidate_none_iff records [] 0).1 hval
      rcases h with ⟨r, hr, hre⟩ | h
      · exact absurd hre (hprop r hr).1
      · exact absurd hnd h
  · intro uuidOk execOk commitOk tbl now records
    refine ⟨?_, ?_, ?_, ?_⟩
    · intro h
      have hlen : ¬ records.length = 0 := by
        intro h0
        rw [List.length_eq_zero] at h0
        subst h0
        rcases h with ⟨r, hr, _⟩ | hnd
        · simp at hr
        · exact hnd List.nodup_nil
      cases hval : pgLoadValidate uuidOk records [] 0 with
      | some e => exact ⟨e, by simp [PgStore.LoadRecords, hlen, hval]⟩
      | none =>
        obtain ⟨hprop, hnd⟩ := (pgLoadValidate_none_iff uuidOk records [] 0).1 hval
        rcases h with ⟨r, hr, hre | hru⟩ | h
        · exact absurd hre (hprop r hr).1
        · rw [(hprop r hr).2.1] at hru
          cases hru
        · exact absurd hnd h
    · intro h
      have hlen : ¬ records.length = 0 := by
        obtain ⟨j, hj, _⟩ := h
        omega
      cases hval : pgLoadValidate uuidOk records [] 0 with
      | some e => exact ⟨e, by simp [PgStore.LoadRecords, hlen, hval]⟩
      | none =>
        obtain ⟨e, he⟩ := pgLoadLoop_err execOk now records tbl 0 (by simpa using h)
        exact ⟨e, by simp [PgStore.LoadRecords, hlen, hval, he]⟩
    · intro hc hne
      have hlen : ¬ records.length = 0 := by
        intro h0
        rw [List.length_eq_zero] at h0
        exact hne h0
      cases hval : pgLoadValidate uuidOk records [] 0 with
      | some e => exact ⟨e, by simp [PgStore.LoadRecords, hlen, hval]⟩
      | none =>
        cases hloop : pgLoadLoop execOk now tbl records 0 with
        | error e => exact ⟨e, by simp [PgStore.LoadRecords, hlen, hval, hloop]⟩
        | ok tx =>
          exact ⟨"failed to commit transaction",
            by simp [PgStore.LoadRecords, hlen, hval, hloop, hc]⟩
    · intro h1 h2 hexec hc
      by_cases hlen : records.length = 0
      · have : records = [] := by
          rw [← List.length_eq_zero]
          exact hlen
        subst this
        simp [PgStore.LoadRecords]
      · have hval : pgLoadValidate uuidOk records [] 0 = none :=
          (pgLoadValidate_none_iff uuidOk records [] 0).2
            ⟨fun r hr => ⟨(h1 r hr).1, (h1 r hr).2, by simp⟩, h2⟩
        simp [PgStore.LoadRecords, hlen, hval, pgLoadLoop_ok execOk hexec, hc]

/-- Witness for claim C7: a batch containing the zero record (empty ID) is
rejected by the file backend. -/
theorem claim_C7_load_validate_all_or_nothing_witness :
    ∃ e, FileStore.LoadRecords fileEmpty 5 [zeroEntry] = .error e :=
  claim_C7_load_validate_all_or_nothing.1 fileEmpty 5 [zeroEntry]
    (Or.inl ⟨zeroEntry, by simp, rfl⟩)

/-! ### Claim C8 -/

/-- Claim C8: the file-backend flush serializes both partitions, writes a
temporary file (whose name, the live name plus `".tmp"`, never aliases the
live file) and renames it over the live file.  On any failure — marshal,
temporary-file write, or rename — an error is returned, the live file
contents are untouched and the store (in particular `isDirty`) is
unchanged; the live file contents only ever change to the complete
serialized document, on the fully successful path that also clears
`isDirty`.  `Flush` is a no-op on a clean store. -/
theorem claim_C8_flush_atomic :
    ∀ (marshal : FileData → Option String) (writeOk renameOk : Bool) (disk : Disk) (f : FileStore),
      (f.isDirty = false → FileStore.Flush marshal writeOk renameOk disk f = (disk, f, .ok ())) ∧
      (∀ (d2 : Disk) (f2 : FileStore) (res : Except String Unit),
        FileStore.flush marshal writeOk renameOk disk f = (d2, f2, res) →
        ((∀ e, res = .error e → mapGet d2 f.filename = mapGet disk f.filename ∧ f2 = f) ∧
         (mapGet d2 f.filename = mapGet disk f.filename ∨
           ∃ data, marshal { Records := f.records, DeletedRecs := f.deletedRecs } = some data ∧
             res = .ok () ∧ mapGet d2 f.filename = some data ∧
             f2 = { f with isDirty := false }))) := by
  intro marshal writeOk renameOk disk f
  constructor
  · intro hd
    simp [FileStore.Flush, hd]
  · intro d2 f2 res h
    unfold FileStore.flush at h
    cases hm : marshal { Records := f.records, DeletedRecs := f.deletedRecs } with
    | none =>
      rw [hm] at h
      obtain ⟨h1, h2, h3⟩ : disk = d2 ∧ f = f2 ∧
          (Except.error ("failed to marshal knowledge data") : Except String Unit) = res := by
        simpa [Prod.ext_iff] using h
      subst h1
      subst h2
      subst h3
      exact ⟨fun e _ => ⟨rfl, rfl⟩, Or.inl rfl⟩
    | some data =>
      rw [hm] at h
      by_cases hw : writeOk
      · by_cases hr : renameOk
        · obtain ⟨h1, h2, h3⟩ : mapSet (mapDel (mapSet disk (f.filename ++ ".tmp") data)
                (f.filename ++ ".tmp")) f.filename data = d2 ∧
              ({ f with isDirty := false } : FileStore) = f2 ∧
              (Except.ok () : Except String Unit) = res := by
            rw [hw, hr] at h
            simpa [Prod.ext_iff] using h
          subst h1
          subst h2
          subst h3
          constructor
          · intro e he
            cases he
          · refine Or.inr ⟨data, rfl, rfl, ?_, rfl⟩
            exact mapGet_mapSet_self _ _ _
        · have hr2 : renameOk = false := by simpa using hr
          obtain ⟨h1, h2, h3⟩ : mapSet disk (f.filename ++ ".tmp") data = d2 ∧ f = f2 ∧
              (Except.error ("failed to save knowledge file") : Except String Unit) = res := by
            rw [hw, hr2] at h
            simpa [Prod.ext_iff] using h
          subst h1
          subst h2
          subst h3
          have hget : mapGet (mapSet disk (f.filename ++ ".tmp") data) f.filename
              = mapGet disk f.filename :=
            mapGet_mapSet_ne disk _ f.filename data (fun hh => tmpFile_ne f.filename hh.symm)
          exact ⟨fun e _ => ⟨hget, rfl⟩, Or.inl hget⟩
      · have hw2 : writeOk = false := by simpa using hw
        obtain ⟨h1, h2, h3⟩ : disk = d2 ∧ f = f2 ∧
            (Except.error ("failed to write knowledge data to temp file") : Except String Unit)
              = res := by
          rw [hw2] at h
          simpa [Prod.ext_iff] using h
        subst h1
        subst h2
        subst h3
        exact ⟨fun e _ => ⟨rfl, rfl⟩, Or.inl rfl⟩

/-- Witness for claim C8: a concrete flush whose rename fails leaves the
live file contents and the store unchanged. -/
theorem claim_C8_flush_atomic_witness :
    mapGet (FileStore.flush (fun _ => some ("doc")) true false [("knowledge.json", "old")] fileAB).1
        fileAB.filename
      = mapGet [("knowledge.json", "old")] fileAB.filename ∧
    (FileStore.flush (fun _ => some ("doc")) true false [("knowledge.json", "old")] fileAB).2.1
      = fileAB :=
  ((claim_C8_flush_atomic (fun _ => some ("doc")) true false [("knowledge.json", "old")] fileAB).2
    _ _ _ rfl).1 _ rfl

/-! ### Claim C9 -/

/-- Claim C9: on the file and in-process backends pagination is applied
strictly after the filter and sort stages; an `Offset` at or past the
number of filtered results yields the empty page with no error, and a
non-positive `Limit` yields the full offset-adjusted result set. -/
theorem claim_C9_pagination_after_filter_sort :
    ∀ (mc : Entry → Condition → Bool) (filter : Filter),
      (∀ (f : FileStore),
        FileStore.SearchRecords mc f filter
          = fileApplyPagination filter (FileStore.searchFilteredSorted mc f filter) ∧
        (filter.Offset ≥ ((FileStore.searchFilteredSorted mc f filter).length : Int) →
          FileStore.SearchRecords mc f filter = some []) ∧
        (filter.Limit ≤ 0 →
          FileStore.SearchRecords mc f filter
            = some ((FileStore.searchFilteredSorted mc f filter).drop filter.Offset.toNat))) ∧
      (∀ (m : MemoryStore),
        MemoryStore.SearchRecords mc m filter
          = memApplyLimitOffset filter (MemoryStore.searchFilteredSorted mc m filter) ∧
        (filter.Offset ≥ ((MemoryStore.searchFilteredSorted mc m filter).length : Int) →
          MemoryStore.SearchRecords mc m filter = some []) ∧
        (filter.Limit ≤ 0 →
          MemoryStore.SearchRecords mc m filter
            = some ((MemoryStore.searchFilteredSorted mc m filter).drop filter.Offset.toNat))) :=
  fun mc filter =>
    ⟨fun f => ⟨rfl,
      fun h => fileApplyPagination_offset_ge filter _ h,
      fun h => fileApplyPagination_limit_nonpos filter _ h⟩,
     fun m => ⟨rfl,
      fun h => memApplyLimitOffset_offset_ge filter _ h,
      fun h => memApplyLimitOffset_limit_nonpos filter _ h⟩⟩

/-- Witness for claim C9: on a concrete one-record store, an offset of 5
returns the empty page with no error (a `some` result). -/
theorem claim_C9_pagination_after_filter_sort_witness :
    MemoryStore.SearchRecords mcAlways memAB { zeroFilter with Offset := 5 } = some [] :=
  ((claim_C9_pagination_after_filter_sort mcAlways { zeroFilter with Offset := 5 }).2 memAB).2.1
    (by decide)

/-! ### Claim C10, amended -/

/-- Claim C10, amended: `FileStore.SearchRecords` is total for every
filter, but the in-process `SearchRecords` (both source variants) is total
only when the offset is non-negative or no positive limit is set; with
`Offset < 0` and `Limit > 0` its final slice expression panics (see the
counterexample). -/
theorem claim_C10_search_totality :
    (∀ (mc : Entry → Condition → Bool) (f : FileStore) (filter : Filter),
      (FileStore.SearchRecords mc f filter).isSome) ∧
    (∀ (mc : Entry → Condition → Bool) (m : MemoryStore) (filter : Filter),
      0 ≤ filter.Offset ∨ filter.Limit ≤ 0 →
      (MemoryStore.SearchRecords mc m filter).isSome ∧
      (MemoryStore.SearchRecordsV2 mc m filter).isSome) :=
  ⟨fun _ _ filter => fileApplyPagination_isSome filter _,
   fun _ _ filter h =>
    ⟨memApplyLimitOffset_isSome filter _ h, memApplyLimitOffset_isSome filter _ h⟩⟩

/-- Witness for the amended claim C10, at a concrete store and filter. -/
theorem claim_C10_search_totality_witness :
    (MemoryStore.SearchRecords mcAlways memAB zeroFilter).isSome ∧
    (MemoryStore.SearchRecordsV2 mcAlways memAB zeroFilter).isSome :=
  claim_C10_search_totality.2 mcAlways memAB zeroFilter (Or.inl (by decide))

end Knowledge
